import Mathlib

/-!
# Inner Ring: reputation processor construction and configuration parsing

A shallow embedding of

* `pkg/innerring/processors/reputation/processor.go` (constructor `New` and the
  four listener registration methods), and
* `pkg/innerring/config.go` (the `parseConfig*` functions, `isAutoDeploymentMode`
  and `parseBlockchainConfig`),

followed by theorems about them.

Go references (pointers, interfaces) are `Option`s: `none` is `nil`.  Go errors
are values of `GoError`; a function returning `(T, error)` returns a pair whose
second component is `none` for a `nil` error.  Functions of libraries outside
the repository (`ants.NewPool`, `cast.ToUint64E`, the `%#v` verb of `fmt`, and
those gathered in `Libs`) are parameters of the definitions that call them.
Unsigned machine integers are natural numbers, reduced modulo `2 ^ 32` or
`2 ^ 64` where the code converts or subtracts.
-/

set_option autoImplicit false

namespace InnerRing

/-! ## Go errors -/

/-- Go error values.  `sentinel` is a package-level variable initialised once
with `errors.New` (its identity is the variable), `errorString` is a value
allocated by a call of `errors.New` or of `fmt.Errorf` without `%w`, and
`wrapError` is what `fmt.Errorf` allocates for a format with one `%w`: the
formatted text together with the wrapped error. -/
inductive GoError where
  | sentinel (name : String) (msg : String)
  | errorString (msg : String)
  | wrapError (msg : String) (err : GoError)
  deriving DecidableEq, Repr

namespace GoError

/-- Method `Error()`: the message of an error. -/
def Error : GoError → String
  | sentinel _ msg => msg
  | errorString msg => msg
  | wrapError msg _ => msg

/-- Method `Unwrap()`, present on `wrapError` only. -/
def Unwrap : GoError → Option GoError
  | wrapError _ err => some err
  | _ => none

end GoError

/-- Function `errors.New(text)`. -/
def errorsNew (text : String) : GoError := GoError.errorString text

/-- Call `fmt.Errorf(pre + "%w", err)`: the format ends in its only `%w`. -/
def fmtErrorfW (pre : String) (err : GoError) : GoError :=
  GoError.wrapError (pre ++ err.Error) err

/-- Function `errors.Is(err, target)`: walks the `Unwrap` chain of `err` and
compares each link with `target`. -/
def errorsIs : GoError → GoError → Bool
  | GoError.wrapError msg err, target =>
      decide (GoError.wrapError msg err = target) || errorsIs err target
  | e, target => decide (e = target)

/-! ## Reputation processor: data model -/

/-- Reference to a `zap.Logger`. -/
structure Logger where
  ref : Nat
  deriving DecidableEq, Repr

/-- Value implementing the callback interface `EpochState`. -/
structure EpochState where
  ref : Nat
  deriving DecidableEq, Repr

/-- Value implementing the callback interface `AlphabetState`. -/
structure AlphabetState where
  ref : Nat
  deriving DecidableEq, Repr

/-- Value implementing `common.ManagerBuilder`. -/
structure ManagerBuilder where
  ref : Nat
  deriving DecidableEq, Repr

/-- Type `util.Uint160`: a 160-bit script hash. -/
abbrev Uint160 := Fin (2 ^ 160)

/-- Referent of a `*reputationWrapper.ClientWrapper`; `ContractAddress()`
reads the address of the contract the client is bound to. -/
structure ClientWrapper where
  ref : Nat
  ContractAddress : Uint160
  deriving DecidableEq, Repr

/-- Options of `ants.NewPool`; `New` passes `ants.WithNonblocking(true)`. -/
structure PoolOptions where
  Nonblocking : Bool
  deriving DecidableEq, Repr

/-- Referent of an `*ants.Pool`. -/
structure Pool where
  capacity : Int
  options : PoolOptions
  deriving DecidableEq, Repr

/-- Signature of `ants.NewPool`, a function of a library outside the
repository: a pool, or the error of the library. -/
abbrev NewPoolFn := Int → PoolOptions → Except GoError Pool

/-- Struct `Params`: parameters of the processor constructor. -/
structure Params where
  Log : Option Logger
  PoolSize : Int
  EpochState : Option EpochState
  AlphabetState : Option AlphabetState
  ReputationWrapper : Option ClientWrapper
  ManagerBuilder : Option ManagerBuilder
  NotaryDisabled : Bool
  deriving DecidableEq, Repr

/-- Struct `Processor`: processor of events produced by reputation contract. -/
structure Processor where
  log : Option Logger
  pool : Option Pool
  epochState : Option EpochState
  alphabetState : Option AlphabetState
  reputationWrp : Option ClientWrapper
  mngBuilder : Option ManagerBuilder
  notaryDisabled : Bool
  deriving DecidableEq, Repr

/-- Constant `putReputationNotification`. -/
def putReputationNotification : String := "reputationPut"

/-- Calls that `New` makes on its collaborators, in order. -/
inductive Call where
  | logDebug (msg : String) (field : String) (size : Int)
  | antsNewPool (size : Int) (opts : PoolOptions)
  deriving DecidableEq, Repr

/-- Outcome of `New`: the two results and the calls made on the way. -/
structure NewResult where
  proc : Option Processor
  err : Option GoError
  calls : List Call
  deriving DecidableEq, Repr

/-- Function `New`: creates reputation contract processor instance. -/
def New (antsNewPool : NewPoolFn) (p : Params) : NewResult :=
  if p.Log.isNone then
    ⟨none, some (errorsNew "ir/reputation: logger is not set"), []⟩
  else if p.EpochState.isNone then
    ⟨none, some (errorsNew "ir/reputation: global state is not set"), []⟩
  else if p.AlphabetState.isNone then
    ⟨none, some (errorsNew "ir/reputation: global state is not set"), []⟩
  else if p.ReputationWrapper.isNone then
    ⟨none, some (errorsNew "ir/reputation: reputation contract wrapper is not set"), []⟩
  else if p.ManagerBuilder.isNone then
    ⟨none, some (errorsNew "ir/reputation: manager builder is not set"), []⟩
  else
    let calls := [Call.logDebug "reputation worker pool" "size" p.PoolSize,
                  Call.antsNewPool p.PoolSize ⟨true⟩]
    match antsNewPool p.PoolSize ⟨true⟩ with
    | Except.error err =>
        ⟨none, some (fmtErrorfW "ir/reputation: can't create worker pool: " err), calls⟩
    | Except.ok pool =>
        ⟨some { log := p.Log
                pool := some pool
                epochState := p.EpochState
                alphabetState := p.AlphabetState
                reputationWrp := p.ReputationWrapper
                mngBuilder := p.ManagerBuilder
                notaryDisabled := p.NotaryDisabled },
         none, calls⟩

/-! ## Event registration records

The records of package `pkg/morph/event` and the names of package
`pkg/morph/event/reputation` that the listener methods use. -/

/-- Type `mempoolevent.Type` of neo-go, a byte. -/
structure MempoolType where
  val : Nat
  deriving DecidableEq, Repr

/-- Constant `mempoolevent.TransactionAdded`. -/
def MempoolType.TransactionAdded : MempoolType := ⟨1⟩

/-- Modelled from the spec: type `event.NotaryType` and the constant
`reputationEvent.PutNotaryEvent` are declared outside the given sources; the
request type is kept as a name, `zero` being the value of an unset field. -/
inductive NotaryType where
  | zero
  | PutNotaryEvent
  deriving DecidableEq, Repr

/-- Parsers of plain notifications, by name: `reputationEvent.ParsePut`. -/
inductive NotificationParser where
  | ParsePut
  deriving DecidableEq, Repr

/-- Parsers of notary requests, by name: `reputationEvent.ParsePutNotary`. -/
inductive NotaryParser where
  | ParsePutNotary
  deriving DecidableEq, Repr

/-- Methods of `Processor` that are registered as handlers. -/
inductive HandlerMethod where
  | handlePutReputation
  deriving DecidableEq, Repr

/-- Method value such as `rp.handlePutReputation`: a method bound to its
receiver. -/
structure Handler where
  method : HandlerMethod
  recv : Processor
  deriving DecidableEq, Repr

/-- Modelled from the spec: struct `event.NotificationParserInfo` is declared
outside the given sources; an event type, a contract address and a parser,
written by `SetType`, `SetScriptHash` and `SetParser`. -/
structure NotificationParserInfo where
  typ : String
  scriptHash : Uint160
  p : Option NotificationParser
  deriving DecidableEq, Repr

/-- Modelled from the spec: struct `event.NotificationHandlerInfo` is declared
outside the given sources; an event type, a contract address and a handler,
written by `SetType`, `SetScriptHash` and `SetHandler`. -/
structure NotificationHandlerInfo where
  typ : String
  scriptHash : Uint160
  h : Option Handler
  deriving DecidableEq, Repr

/-- Modelled from the spec: struct `event.NotaryParserInfo` is declared outside
the given sources; a mempool trigger type, a request type, a contract address
and a parser, each written by its setter. -/
structure NotaryParserInfo where
  mempoolType : MempoolType
  requestType : NotaryType
  scriptHash : Uint160
  p : Option NotaryParser
  deriving DecidableEq, Repr

/-- Modelled from the spec: struct `event.NotaryHandlerInfo` is declared outside
the given sources; a mempool trigger type, a request type, a contract address
and a handler, each written by its setter. -/
structure NotaryHandlerInfo where
  mempoolType : MempoolType
  requestType : NotaryType
  scriptHash : Uint160
  h : Option Handler
  deriving DecidableEq, Repr

namespace NotificationParserInfo

/-- Zero value `event.NotificationParserInfo{}`. -/
def zero : NotificationParserInfo := ⟨"", 0, none⟩

/-- Setter `SetType`. -/
def SetType (i : NotificationParserInfo) (t : String) : NotificationParserInfo :=
  { i with typ := t }

/-- Setter `SetScriptHash`. -/
def SetScriptHash (i : NotificationParserInfo) (a : Uint160) : NotificationParserInfo :=
  { i with scriptHash := a }

/-- Setter `SetParser`. -/
def SetParser (i : NotificationParserInfo) (f : NotificationParser) : NotificationParserInfo :=
  { i with p := some f }

end NotificationParserInfo

namespace NotificationHandlerInfo

/-- Zero value `event.NotificationHandlerInfo{}`. -/
def zero : NotificationHandlerInfo := ⟨"", 0, none⟩

/-- Setter `SetType`. -/
def SetType (i : NotificationHandlerInfo) (t : String) : NotificationHandlerInfo :=
  { i with typ := t }

/-- Setter `SetScriptHash`. -/
def SetScriptHash (i : NotificationHandlerInfo) (a : Uint160) : NotificationHandlerInfo :=
  { i with scriptHash := a }

/-- Setter `SetHandler`. -/
def SetHandler (i : NotificationHandlerInfo) (f : Handler) : NotificationHandlerInfo :=
  { i with h := some f }

end NotificationHandlerInfo

namespace NotaryParserInfo

/-- Zero value of `var p event.NotaryParserInfo`. -/
def zero : NotaryParserInfo := ⟨⟨0⟩, NotaryType.zero, 0, none⟩

/-- Setter `SetMempoolType`. -/
def SetMempoolType (i : NotaryParserInfo) (t : MempoolType) : NotaryParserInfo :=
  { i with mempoolType := t }

/-- Setter `SetRequestType`. -/
def SetRequestType (i : NotaryParserInfo) (t : NotaryType) : NotaryParserInfo :=
  { i with requestType := t }

/-- Setter `SetScriptHash`. -/
def SetScriptHash (i : NotaryParserInfo) (a : Uint160) : NotaryParserInfo :=
  { i with scriptHash := a }

/-- Setter `SetParser`. -/
def SetParser (i : NotaryParserInfo) (f : NotaryParser) : NotaryParserInfo :=
  { i with p := some f }

end NotaryParserInfo

namespace NotaryHandlerInfo

/-- Zero value of `var h event.NotaryHandlerInfo`. -/
def zero : NotaryHandlerInfo := ⟨⟨0⟩, NotaryType.zero, 0, none⟩

/-- Setter `SetMempoolType`. -/
def SetMempoolType (i : NotaryHandlerInfo) (t : MempoolType) : NotaryHandlerInfo :=
  { i with mempoolType := t }

/-- Setter `SetRequestType`. -/
def SetRequestType (i : NotaryHandlerInfo) (t : NotaryType) : NotaryHandlerInfo :=
  { i with requestType := t }

/-- Setter `SetScriptHash`. -/
def SetScriptHash (i : NotaryHandlerInfo) (a : Uint160) : NotaryHandlerInfo :=
  { i with scriptHash := a }

/-- Setter `SetHandler`. -/
def SetHandler (i : NotaryHandlerInfo) (f : Handler) : NotaryHandlerInfo :=
  { i with h := some f }

end NotaryHandlerInfo

/-! ## Reputation processor: listener registrations -/

/-- Run-time panics of the listener methods. -/
inductive Panic where
  | nilDereference
  deriving DecidableEq, Repr

/-- Call `rp.reputationWrp.ContractAddress()`: reads through the pointer, so a
nil wrapper is a nil dereference. -/
def Processor.contractAddress (rp : Processor) : Except Panic Uint160 :=
  match rp.reputationWrp with
  | none => Except.error Panic.nilDereference
  | some w => Except.ok w.ContractAddress

/-- Method `ListenerNotificationParsers` for the event listener. -/
def Processor.ListenerNotificationParsers (rp : Processor) :
    Except Panic (List NotificationParserInfo) :=
  if !rp.notaryDisabled then
    Except.ok []
  else
    let parsers : List NotificationParserInfo := []
    let put := NotificationParserInfo.zero
    let put := put.SetType putReputationNotification
    match rp.contractAddress with
    | Except.error e => Except.error e
    | Except.ok addr =>
        let put := put.SetScriptHash addr
        let put := put.SetParser NotificationParser.ParsePut
        Except.ok (parsers ++ [put])

/-- Method `ListenerNotificationHandlers` for the event listener. -/
def Processor.ListenerNotificationHandlers (rp : Processor) :
    Except Panic (List NotificationHandlerInfo) :=
  if !rp.notaryDisabled then
    Except.ok []
  else
    let handlers : List NotificationHandlerInfo := []
    let put := NotificationHandlerInfo.zero
    let put := put.SetType putReputationNotification
    match rp.contractAddress with
    | Except.error e => Except.error e
    | Except.ok addr =>
        let put := put.SetScriptHash addr
        let put := put.SetHandler ⟨HandlerMethod.handlePutReputation, rp⟩
        Except.ok (handlers ++ [put])

/-- Method `ListenerNotaryParsers` for the notary event listener. -/
def Processor.ListenerNotaryParsers (rp : Processor) :
    Except Panic (List NotaryParserInfo) :=
  let p := NotaryParserInfo.zero
  let p := p.SetMempoolType MempoolType.TransactionAdded
  let p := p.SetRequestType NotaryType.PutNotaryEvent
  match rp.contractAddress with
  | Except.error e => Except.error e
  | Except.ok addr =>
      let p := p.SetScriptHash addr
      let p := p.SetParser NotaryParser.ParsePutNotary
      Except.ok [p]

/-- Method `ListenerNotaryHandlers` for the notary event listener. -/
def Processor.ListenerNotaryHandlers (rp : Processor) :
    Except Panic (List NotaryHandlerInfo) :=
  let h := NotaryHandlerInfo.zero
  let h := h.SetMempoolType MempoolType.TransactionAdded
  let h := h.SetRequestType NotaryType.PutNotaryEvent
  match rp.contractAddress with
  | Except.error e => Except.error e
  | Except.ok addr =>
      let h := h.SetScriptHash addr
      let h := h.SetHandler ⟨HandlerMethod.handlePutReputation, rp⟩
      Except.ok [h]

/-- Method `TimersHandlers` for the timers event producer. -/
def Processor.TimersHandlers (_rp : Processor) : List NotificationHandlerInfo := []

/-! ## Configuration store and values -/

/-- Finite Go floating-point number: the dyadic rational `mant * 2 ^ exp`. -/
structure GoFloat where
  mant : Int
  exp : Int
  deriving DecidableEq, Repr

/-- Dynamically typed values (`interface{}`) that the configuration store
holds, by the Go type they carry; `list` is an array of strings and `dict` a
dictionary of integers. -/
inductive Value where
  | nil
  | bool (b : Bool)
  | int (i : Int)
  | uint (n : Nat)
  | float32 (f : GoFloat)
  | float64 (f : GoFloat)
  | string (s : String)
  | list (xs : List String)
  | dict (m : List (String × Int))
  | other (typeName : String)
  deriving DecidableEq, Repr

/-- Verb `%T` of `fmt`: the name of the dynamic type of a value. -/
def Value.typeName : Value → String
  | Value.nil => "<nil>"
  | Value.bool _ => "bool"
  | Value.int _ => "int"
  | Value.uint _ => "uint64"
  | Value.float32 _ => "float32"
  | Value.float64 _ => "float64"
  | Value.string _ => "string"
  | Value.list _ => "[]interface {}"
  | Value.dict _ => "map[string]interface {}"
  | Value.other t => t

/-- Referent of a `*viper.Viper`: the values found under each key. -/
structure Viper where
  store : List (String × Value)
  deriving DecidableEq, Repr

/-- Method `Get` of viper: the value found under the key, nil if none. -/
def Viper.Get (v : Viper) (key : String) : Value :=
  match v.store.lookup key with
  | some val => val
  | none => Value.nil

/-- Method `IsSet` of viper: whether the value found under the key is not
nil. -/
def Viper.IsSet (v : Viper) (key : String) : Bool :=
  decide (v.Get key ≠ Value.nil)

/-- Signature of `cast.ToUint64E`, a function of a library outside the
repository: the pair `(uint64, error)`. -/
abbrev ToUint64EFn := Value → Nat × Option GoError

/-- Signature of the verb `%#v` of `fmt`: the Go-syntax text of a value. -/
abbrev SharpVFn := Value → String

/-- Call `fmt.Errorf(format, args...)` for a format without `%w`, given the
formatted text. -/
def fmtErrorf (text : String) : GoError := GoError.errorString text

/-! ## Configuration parsing: unsigned integers -/

/-- Variable `errMissingConfig`. -/
def errMissingConfig : GoError :=
  GoError.sentinel "errMissingConfig" "config value is missing"

/-- Function `parseConfigUint64Condition`; a nil `cond` is `none`. -/
def parseConfigUint64Condition (toUint64E : ToUint64EFn) (sharpV : SharpVFn)
    (v : Viper) (key desc : String) (cond : Option (Nat → Option GoError)) :
    Nat × Option GoError :=
  let res : Nat := 0
  let err : Option GoError := if !v.IsSet key then some errMissingConfig else none
  let tail (res : Nat) (err : Option GoError) : Nat × Option GoError :=
    match err with
    | some e =>
        (res, some (fmtErrorfW ("invalid " ++ desc ++ " '" ++ key ++ "' (unsigned integer): ") e))
    | none => (res, none)
  if err.isNone then
    match v.Get key with
    | Value.float32 f =>
        (0, some (fmtErrorf ("unable to cast " ++ sharpV (Value.float32 f) ++ " of type "
          ++ (Value.float32 f).typeName ++ " to uint64")))
    | Value.float64 f =>
        (0, some (fmtErrorf ("unable to cast " ++ sharpV (Value.float64 f) ++ " of type "
          ++ (Value.float64 f).typeName ++ " to uint64")))
    | val =>
        let r := toUint64E val
        let res := r.1
        let err := r.2
        let err := if err.isNone then
            match cond with
            | some c => c res
            | none => err
          else err
        tail res err
  else
    tail res err

/-- Function `parseConfigUint64Range`. -/
def parseConfigUint64Range (toUint64E : ToUint64EFn) (sharpV : SharpVFn)
    (v : Viper) (key desc : String) (min max : Nat) : Nat × Option GoError :=
  parseConfigUint64Condition toUint64E sharpV v key desc
    (some fun val =>
      if val < min ∨ val > max then
        some (fmtErrorf ("out of allowable range [" ++ toString min ++ ":" ++ toString max ++ "]"))
      else none)

/-- Function `parseConfigUint64Max`. -/
def parseConfigUint64Max (toUint64E : ToUint64EFn) (sharpV : SharpVFn)
    (v : Viper) (key desc : String) (max : Nat) : Nat × Option GoError :=
  parseConfigUint64Range toUint64E sharpV v key desc 0 max

/-! ## Configuration parsing: the other value kinds -/

/-- Referent of a `*keys.PublicKey`, by the string it was decoded from. -/
structure PublicKey where
  text : String
  deriving DecidableEq, Repr

/-- The functions of libraries outside the repository that the configuration
parsers call, each a pair `(result, error)` where the Go function returns
one. -/
structure Libs where
  /-- Function `cast.ToUint64E`. -/
  toUint64E : ToUint64EFn
  /-- Verb `%#v` of `fmt`. -/
  sharpV : SharpVFn
  /-- Function `cast.ToString`, behind `viper.GetString`. -/
  castToString : Value → String
  /-- Function `cast.ToBool`, behind `viper.GetBool`. -/
  castToBool : Value → Bool
  /-- Function `cast.ToDurationE`, in nanoseconds. -/
  toDurationE : Value → Int × Option GoError
  /-- Function `cast.ToStringSliceE`. -/
  toStringSliceE : Value → List String × Option GoError
  /-- Function `cast.ToStringMapE`, the dictionary by its entries. -/
  toStringMapE : Value → List (String × Value) × Option GoError
  /-- Function `cast.ToUint32E`. -/
  toUint32E : Value → Nat × Option GoError
  /-- Call `strconv.ParseUint(s, 10, 32)`. -/
  parseUint32 : String → Nat × Option GoError
  /-- Function `keys.NewPublicKeysFromStrings`. -/
  newPublicKeysFromStrings : List String → List PublicKey × Option GoError
  /-- Call `net.ResolveTCPAddr("tcp", s)`, by its error. -/
  resolveTCPAddr : String → Option GoError
  /-- Function `strings.TrimSpace`. -/
  trimSpace : String → String

/-- Method `GetString` of viper. -/
def Viper.GetString (lib : Libs) (v : Viper) (key : String) : String :=
  lib.castToString (v.Get key)

/-- Method `GetBool` of viper. -/
def Viper.GetBool (lib : Libs) (v : Viper) (key : String) : Bool :=
  lib.castToBool (v.Get key)

/-- Function `parseConfigDurationCondition`; a nil `cond` is `none`. -/
def parseConfigDurationCondition (lib : Libs) (v : Viper) (key desc : String)
    (cond : Option (Int → Option GoError)) : Int × Option GoError :=
  let res : Int := 0
  let err : Option GoError := if !v.IsSet key then some errMissingConfig else none
  let r : Int × Option GoError :=
    if err.isNone then
      let r := lib.toDurationE (v.Get key)
      let res := r.1
      let err := r.2
      let err := if err.isNone then
          match cond with
          | some c => c res
          | none => err
        else err
      (res, err)
    else (res, err)
  match r.2 with
  | some e => (r.1, some (fmtErrorfW ("invalid " ++ desc ++ " '" ++ key ++ "' (duration): ") e))
  | none => (r.1, none)

/-- Function `parseConfigDurationPositive`. -/
def parseConfigDurationPositive (lib : Libs) (v : Viper) (key desc : String) :
    Int × Option GoError :=
  parseConfigDurationCondition lib v key desc
    (some fun d => if d ≤ 0 then some (errorsNew "must be positive") else none)

/-- Function `parseConfigStrings`. -/
def parseConfigStrings (lib : Libs) (v : Viper) (key desc : String) :
    List String × Option GoError :=
  let res : List String := []
  let err : Option GoError := if !v.IsSet key then some errMissingConfig else none
  let r : List String × Option GoError :=
    if err.isNone then lib.toStringSliceE (v.Get key) else (res, err)
  match r.2 with
  | some e =>
      (r.1, some (fmtErrorfW ("invalid " ++ desc ++ " '" ++ key ++ "' (string array): ") e))
  | none => (r.1, none)

/-- Function `parseConfigPublicKeys`. -/
def parseConfigPublicKeys (lib : Libs) (v : Viper) (key desc : String) :
    List PublicKey × Option GoError :=
  let r := parseConfigStrings lib v key desc
  match r.2 with
  | some err => ([], some err)
  | none =>
      let k := lib.newPublicKeysFromStrings r.1
      match k.2 with
      | some err =>
          (k.1, some (fmtErrorfW ("invalid " ++ desc ++ " '" ++ key ++ "' (public keys): ") err))
      | none => (k.1, none)

/-- Function `parseConfigAddressesTCP`. -/
def parseConfigAddressesTCP (lib : Libs) (v : Viper) (key desc : String) :
    List String × Option GoError :=
  let r := parseConfigStrings lib v key desc
  match r.2 with
  | some err => ([], some err)
  | none =>
      match r.1.findSome? lib.resolveTCPAddr with
      | some err =>
          (r.1, some (fmtErrorfW ("invalid " ++ desc ++ " '" ++ key ++ "' (TCP addresses): ") err))
      | none => (r.1, none)

/-- The loop `for name, val := range m` of `parseConfigMap`, which stops at the
first element that `f` refuses; `f` acts on the state its closure captures. -/
def rangeConfigMap {σ : Type} (f : σ → String → Value → σ × Option GoError) :
    List (String × Value) → σ → σ × Option GoError
  | [], st => (st, none)
  | (name, val) :: rest, st =>
      match f st name val with
      | (st', some err) => (st', some (fmtErrorfW ("invalid element '" ++ name ++ "': ") err))
      | (st', none) => rangeConfigMap f rest st'

/-- Function `parseConfigMap`, with the state that the closure `f` captures
passed in and out. -/
def parseConfigMap {σ : Type} (lib : Libs) (v : Viper) (key desc : String)
    (f : σ → String → Value → σ × Option GoError) (st : σ) : σ × Option GoError :=
  let err : Option GoError := if !v.IsSet key then some errMissingConfig else none
  let r : σ × Option GoError :=
    if err.isNone then
      let m := lib.toStringMapE (v.Get key)
      match m.2 with
      | some e => (st, some e)
      | none => rangeConfigMap f m.1 st
    else (st, err)
  match r.2 with
  | some e => (r.1, some (fmtErrorfW ("invalid " ++ desc ++ " '" ++ key ++ "' (dictionary): ") e))
  | none => (r.1, none)

/-- Assignment `m[k] = x` on a Go map, kept as the list of its entries. -/
def mapAssign {κ β : Type} [DecidableEq κ] (m : List (κ × β)) (k : κ) (x : β) :
    List (κ × β) :=
  (k, x) :: m.filter (fun e => decide (e.1 ≠ k))

/-- Function `parseConfigMapUint32`. -/
def parseConfigMapUint32 (lib : Libs) (v : Viper) (key desc : String) (limit : Nat) :
    List (String × Nat) × Option GoError :=
  parseConfigMap lib v key desc
    (fun (res : List (String × Nat)) name val =>
      if name = "" then (res, some (errorsNew "empty key"))
      else
        let r := lib.toUint64E val
        let u64 := r.1
        match r.2 with
        | none =>
            if u64 > limit then
              (res, some (fmtErrorf ("value overflows limit " ++ toString u64)))
            else (mapAssign res name (u64 % 2 ^ 32), none)
        | some err => (res, some err))
    []

/-- Function `parseConfigBool`. -/
def parseConfigBool (lib : Libs) (v : Viper) (key desc : String) : Bool × Option GoError :=
  let res : Bool := false
  let err : Option GoError := if !v.IsSet key then some errMissingConfig else none
  let r : Bool × Option GoError :=
    if err.isNone then
      let val := v.GetString lib key
      if val = "false" then (res, err)
      else if val = "true" then (true, err)
      else (res, some (errorsNew "neither true nor false"))
    else (res, err)
  match r.2 with
  | some e => (r.1, some (fmtErrorfW ("invalid " ++ desc ++ " '" ++ key ++ "' (boolean): ") e))
  | none => (r.1, none)

/-- Function `isAutoDeploymentMode`. -/
def isAutoDeploymentMode (lib : Libs) (cfg : Viper) : Bool × Option GoError :=
  let r := parseConfigBool lib cfg "fschain_autodeploy" "flag to auto-deploy the FS chain"
  match r.2 with
  | some err => if !errorsIs err errMissingConfig then (false, some err) else (r.1, none)
  | none => (r.1, none)

/-- Function `isLocalConsensusMode`. -/
def isLocalConsensusMode (cfg : Viper) : Bool :=
  !cfg.IsSet "morph.endpoints"

/-! ## Blockchain configuration -/

/-- Constant `math.MaxUint32`. -/
def MaxUint32 : Nat := 4294967295

/-- Constant `math.MaxInt32`. -/
def MaxInt32 : Nat := 2147483647

/-- Subtraction of `uint64`, which wraps around below zero. -/
def subUint64 (a b : Nat) : Nat := (a % 2 ^ 64 + 2 ^ 64 - b % 2 ^ 64) % 2 ^ 64

/-- Storage settings built by `blockchain.BoltDB`, `blockchain.LevelDB` and
`blockchain.InMemory`; `unset` is the zero value. -/
inductive Storage where
  | unset
  | BoltDB (path : String)
  | LevelDB (path : String)
  | InMemory
  deriving DecidableEq, Repr

/-- Field `RPC.TLSConfig` of `blockchain.Config`. -/
structure TLSConfig where
  Enabled : Bool
  Addresses : List String
  CertFile : String
  KeyFile : String
  deriving DecidableEq, Repr

/-- Field `RPC` of `blockchain.Config`. -/
structure RPCConfig where
  Addresses : List String
  TLSConfig : TLSConfig
  deriving DecidableEq, Repr

/-- Field `P2P.Ping` of `blockchain.Config`, in nanoseconds. -/
structure PingConfig where
  Interval : Int
  Timeout : Int
  deriving DecidableEq, Repr

/-- Field `P2P` of `blockchain.Config`; the three peer numbers are of type
`uint`, taken as 64 bits wide. -/
structure P2PConfig where
  DialTimeout : Int
  ProtoTickInterval : Int
  ListenAddresses : List String
  MinPeers : Nat
  MaxPeers : Nat
  AttemptConnPeers : Nat
  Ping : PingConfig
  deriving DecidableEq, Repr

/-- Modelled from the spec: struct `blockchain.Config` is declared outside the
given sources; its fields are the ones `parseBlockchainConfig` assigns, the two
maps being kept as the lists of their entries. -/
structure Config where
  NetworkMagic : Nat
  Storage : Storage
  Committee : List PublicKey
  BlockInterval : Int
  TraceableChainLength : Nat
  SeedNodes : List String
  HardForks : List (String × Nat)
  ValidatorsHistory : List (Nat × Nat)
  RPC : RPCConfig
  P2P : P2PConfig
  Logger : Option Logger
  deriving DecidableEq, Repr

/-- Zero value of `blockchain.Config`, the initial value of the named result
`c`. -/
def Config.zero : Config :=
  { NetworkMagic := 0
    Storage := Storage.unset
    Committee := []
    BlockInterval := 0
    TraceableChainLength := 0
    SeedNodes := []
    HardForks := []
    ValidatorsHistory := []
    RPC := ⟨[], ⟨false, [], "", ""⟩⟩
    P2P := ⟨0, 0, [], 0, 0, 0, ⟨0, 0⟩⟩
    Logger := none }

/-- Constant `dbconfig.BoltDB` of neo-go. -/
def dbconfigBoltDB : String := "boltdb"

/-- Constant `dbconfig.LevelDB`. -/
def dbconfigLevelDB : String := "leveldb"

/-- Constant `dbconfig.InMemoryDB`. -/
def dbconfigInMemoryDB : String := "inmemory"

/-- Constant `rootSection` of `parseBlockchainConfig`. -/
def rootSection : String := "morph.consensus"

/-- Constant `storageSection`. -/
def storageSection : String := rootSection ++ ".storage"

/-- Constant `p2pSection`. -/
def p2pSection : String := rootSection ++ ".p2p"

/-- Constant `p2pPeersSection`. -/
def p2pPeersSection : String := p2pSection ++ ".peers"

/-- Constant `pingSection`. -/
def pingSection : String := p2pSection ++ ".ping"

/-- Constant `rpcSection`. -/
def rpcSection : String := rootSection ++ ".rpc"

/-- Constant `rpcTLSSection`. -/
def rpcTLSSection : String := rpcSection ++ ".tls"

/-- The test `err != nil && !errors.Is(err, errMissingConfig)`: the error, if
it is one that the caller does not tolerate. -/
def unlessMissing (err : Option GoError) : Option GoError :=
  match err with
  | some e => if !errorsIs e errMissingConfig then some e else none
  | none => none

/-- Sequencing of two parts of `parseBlockchainConfig`: a part that returned
`c, err` with a non-nil error ends the function. -/
def andThen (r : Config × Option GoError) (f : Config → Config × Option GoError) :
    Config × Option GoError :=
  match r.2 with
  | some _ => r
  | none => f r.1

/-- Lines 47-51 of `parseBlockchainConfig`: the network magic. -/
def parseMagic (lib : Libs) (v : Viper) (c : Config) : Config × Option GoError :=
  let r := parseConfigUint64Range lib.toUint64E lib.sharpV v (rootSection ++ ".magic")
    "network magic" 1 MaxUint32
  match r.2 with
  | some err => (c, some err)
  | none => ({ c with NetworkMagic := r.1 % 2 ^ 32 }, none)

/-- Lines 53-77: the storage. -/
def parseStorage (lib : Libs) (v : Viper) (c : Config) : Config × Option GoError :=
  let storageTypeKey := storageSection ++ ".type"
  let storagePathKey := storageSection ++ ".path"
  if !v.IsSet storageSection then
    (c, some (fmtErrorf ("missing storage section '" ++ storageSection ++ "'")))
  else if !v.IsSet storageTypeKey then
    (c, some (fmtErrorf ("missing storage type '" ++ storageTypeKey ++ "'")))
  else
    let typ := v.GetString lib storageTypeKey
    if typ = dbconfigBoltDB then
      if !v.IsSet storagePathKey then
        (c, some (fmtErrorf ("missing path to the BoltDB '" ++ storagePathKey ++ "'")))
      else ({ c with Storage := Storage.BoltDB (v.GetString lib storagePathKey) }, none)
    else if typ = dbconfigLevelDB then
      if !v.IsSet storagePathKey then
        (c, some (fmtErrorf ("missing path to the LevelDB '" ++ storagePathKey ++ "'")))
      else ({ c with Storage := Storage.LevelDB (v.GetString lib storagePathKey) }, none)
    else if typ = dbconfigInMemoryDB then
      ({ c with Storage := Storage.InMemory }, none)
    else
      (c, some (fmtErrorf
        ("unsupported storage type '" ++ storageTypeKey ++ "': '" ++ typ ++ "'")))

/-- Lines 79-85: the committee. -/
def parseCommittee (lib : Libs) (v : Viper) (c : Config) : Config × Option GoError :=
  let committeeKey := rootSection ++ ".committee"
  let r := parseConfigPublicKeys lib v committeeKey "committee members"
  let c := { c with Committee := r.1 }
  match r.2 with
  | some err => (c, some err)
  | none =>
      if c.Committee.length = 0 then
        (c, some (fmtErrorf ("empty committee members '" ++ committeeKey ++ "'")))
      else (c, none)

/-- Lines 87-90: the block interval. -/
def parseBlockInterval (lib : Libs) (v : Viper) (c : Config) : Config × Option GoError :=
  let r := parseConfigDurationPositive lib v (rootSection ++ ".time_per_block") "block interval"
  ({ c with BlockInterval := r.1 }, unlessMissing r.2)

/-- Lines 92-96: the traceable chain length. -/
def parseTraceableChainLength (lib : Libs) (v : Viper) (c : Config) :
    Config × Option GoError :=
  let r := parseConfigUint64Range lib.toUint64E lib.sharpV v
    (rootSection ++ ".max_traceable_blocks") "traceable chain length" 1 MaxUint32
  match unlessMissing r.2 with
  | some err => (c, some err)
  | none => ({ c with TraceableChainLength := r.1 % 2 ^ 32 }, none)

/-- Lines 98-101: the seed nodes. -/
def parseSeedNodes (lib : Libs) (v : Viper) (c : Config) : Config × Option GoError :=
  let r := parseConfigAddressesTCP lib v (rootSection ++ ".seed_nodes") "seed nodes"
  ({ c with SeedNodes := r.1 }, unlessMissing r.2)

/-- Lines 103-109: the hard forks. -/
def parseHardForks (lib : Libs) (v : Viper) (c : Config) : Config × Option GoError :=
  let hardForksKey := rootSection ++ ".hardforks"
  if v.IsSet hardForksKey then
    let r := parseConfigMapUint32 lib v hardForksKey "hard forks" MaxUint32
    ({ c with HardForks := r.1 }, r.2)
  else (c, none)

/-- The function literal of lines 114-127, acting on `c.ValidatorsHistory`. -/
def validatorsHistoryElement (lib : Libs) (vh : List (Nat × Nat)) (name : String)
    (val : Value) : List (Nat × Nat) × Option GoError :=
  let h := lib.parseUint32 name
  match h.2 with
  | some err => (vh, some (fmtErrorfW "parse unsigned integer: " err))
  | none =>
      let n := lib.toUint32E val
      let num := n.1
      match n.2 with
      | some err => (vh, some err)
      | none =>
          if num > MaxInt32 then
            (vh, some (fmtErrorf ("value " ++ toString num ++ " is out of allowable range")))
          else (mapAssign vh (h.1 % 2 ^ 32) num, none)

/-- Lines 111-131: the validators history. -/
def parseValidatorsHistory (lib : Libs) (v : Viper) (c : Config) : Config × Option GoError :=
  let validatorsHistoryKey := rootSection ++ ".validators_history"
  if v.IsSet validatorsHistoryKey then
    let r := parseConfigMap lib v validatorsHistoryKey "validators history"
      (validatorsHistoryElement lib) []
    ({ c with ValidatorsHistory := r.1 }, r.2)
  else (c, none)

/-- Lines 140-160: the TLS settings of the RPC server. -/
def parseRPCTLS (lib : Libs) (v : Viper) (c : Config) : Config × Option GoError :=
  if v.GetBool lib (rpcTLSSection ++ ".enabled") then
    let c := { c with RPC := { c.RPC with TLSConfig := { c.RPC.TLSConfig with Enabled := true } } }
    let r := parseConfigAddressesTCP lib v (rpcTLSSection ++ ".listen")
      "network addresses to listen to Neo RPC over TLS"
    let c := { c with RPC := { c.RPC with TLSConfig := { c.RPC.TLSConfig with Addresses := r.1 } } }
    match r.2 with
    | some err => (c, some err)
    | none =>
        let certCfgKey := rpcTLSSection ++ ".cert_file"
        let c := { c with RPC := { c.RPC with
          TLSConfig := { c.RPC.TLSConfig with CertFile := v.GetString lib certCfgKey } } }
        if lib.trimSpace c.RPC.TLSConfig.CertFile = "" then
          (c, some (fmtErrorf ("RPC TLS setup is enabled but no certificate ('" ++
            certCfgKey ++ "') is provided")))
        else
          let keyCfgKey := rpcTLSSection ++ ".key_file"
          let c := { c with RPC := { c.RPC with
            TLSConfig := { c.RPC.TLSConfig with KeyFile := v.GetString lib keyCfgKey } } }
          if lib.trimSpace c.RPC.TLSConfig.KeyFile = "" then
            (c, some (fmtErrorf ("RPC TLS setup is enabled but no key ('" ++
              keyCfgKey ++ "') is provided")))
          else (c, none)
  else (c, none)

/-- Lines 133-161: the RPC server. -/
def parseRPC (lib : Libs) (v : Viper) (c : Config) : Config × Option GoError :=
  if v.IsSet rpcSection then
    let r := parseConfigAddressesTCP lib v (rpcSection ++ ".listen")
      "network addresses to listen insecure Neo RPC on"
    andThen ({ c with RPC := { c.RPC with Addresses := r.1 } }, unlessMissing r.2)
      (parseRPCTLS lib v)
  else (c, none)

/-- Lines 177-199: the numbers of P2P peers. -/
def parseP2PPeers (lib : Libs) (v : Viper) (c : Config) : Config × Option GoError :=
  if v.IsSet p2pPeersSection then
    let r := parseConfigUint64Max lib.toUint64E lib.sharpV v (p2pPeersSection ++ ".min")
      "minimum number of P2P peers" MaxInt32
    let m : Nat × Option GoError :=
      match r.2 with
      | some err =>
          if !errorsIs err errMissingConfig then (r.1, some err)
          else
            let n := c.Committee.length % 2 ^ 64
            (subUint64 (subUint64 n (subUint64 n 1 / 3)) 1, none)
      | none => (r.1, none)
    match m.2 with
    | some err => (c, some err)
    | none =>
        let c := { c with P2P := { c.P2P with MinPeers := m.1 % 2 ^ 64 } }
        let r := parseConfigUint64Range lib.toUint64E lib.sharpV v (p2pPeersSection ++ ".max")
          "maximum number of P2P peers" 1 MaxInt32
        match unlessMissing r.2 with
        | some err => (c, some err)
        | none =>
            let c := { c with P2P := { c.P2P with MaxPeers := r.1 % 2 ^ 64 } }
            let r := parseConfigUint64Range lib.toUint64E lib.sharpV v
              (p2pPeersSection ++ ".attempts") "number of P2P connection attempts" 1 MaxInt32
            match unlessMissing r.2 with
            | some err => (c, some err)
            | none => ({ c with P2P := { c.P2P with AttemptConnPeers := r.1 % 2 ^ 64 } }, none)
  else (c, none)

/-- Lines 200-210: the P2P ping. -/
def parseP2PPing (lib : Libs) (v : Viper) (c : Config) : Config × Option GoError :=
  if v.IsSet pingSection then
    let r := parseConfigDurationPositive lib v (pingSection ++ ".interval") "P2P ping interval"
    let c := { c with P2P := { c.P2P with Ping := { c.P2P.Ping with Interval := r.1 } } }
    match r.2 with
    | some err => (c, some err)
    | none =>
        let r := parseConfigDurationPositive lib v (pingSection ++ ".timeout") "P2P ping timeout"
        ({ c with P2P := { c.P2P with Ping := { c.P2P.Ping with Timeout := r.1 } } }, r.2)
  else (c, none)

/-- Lines 163-211: the P2P server. -/
def parseP2P (lib : Libs) (v : Viper) (c : Config) : Config × Option GoError :=
  if v.IsSet p2pSection then
    let r := parseConfigDurationPositive lib v (p2pSection ++ ".dial_timeout") "P2P dial timeout"
    andThen ({ c with P2P := { c.P2P with DialTimeout := r.1 } }, unlessMissing r.2) fun c =>
    let r := parseConfigDurationPositive lib v (p2pSection ++ ".proto_tick_interval")
      "P2P protocol tick interval"
    andThen ({ c with P2P := { c.P2P with ProtoTickInterval := r.1 } }, unlessMissing r.2) fun c =>
    let r := parseConfigAddressesTCP lib v (p2pSection ++ ".listen")
      "network addresses to listen Neo P2P on"
    andThen ({ c with P2P := { c.P2P with ListenAddresses := r.1 } }, unlessMissing r.2) fun c =>
    andThen (parseP2PPeers lib v c) (parseP2PPing lib v)
  else (c, none)

/-- Function `parseBlockchainConfig`, part after part. -/
def parseBlockchainConfig (lib : Libs) (v : Viper) (_logger : Option Logger) :
    Config × Option GoError :=
  let c := Config.zero
  if !v.IsSet rootSection then
    (c, some (fmtErrorf ("missing root section '" ++ rootSection ++ "'")))
  else
    andThen (parseMagic lib v c) fun c =>
    andThen (parseStorage lib v c) fun c =>
    andThen (parseCommittee lib v c) fun c =>
    andThen (parseBlockInterval lib v c) fun c =>
    andThen (parseTraceableChainLength lib v c) fun c =>
    andThen (parseSeedNodes lib v c) fun c =>
    andThen (parseHardForks lib v c) fun c =>
    andThen (parseValidatorsHistory lib v c) fun c =>
    andThen (parseRPC lib v c) fun c =>
    andThen (parseP2P lib v c) fun c =>
    ({ c with Logger := _logger }, none)

/-! ## Library instances used to run the definitions -/

/-- An instance of `ants.NewPool` that rejects every size below 1 and
otherwise builds a pool of that capacity. -/
def strictNewPool : NewPoolFn := fun size opts =>
  if size ≤ 0 then Except.error (GoError.sentinel "ants.ErrInvalidPoolSize" "invalid size for pool")
  else Except.ok ⟨size, opts⟩

/-- An instance of `ants.NewPool` that takes a size below 1 for an unlimited
pool. -/
def lenientNewPool : NewPoolFn := fun size opts =>
  Except.ok ⟨if size ≤ 0 then -1 else size, opts⟩

/-- An instance of `cast.ToUint64E` on booleans, integers and nil; every
other value is refused. -/
def basicToUint64E : ToUint64EFn := fun val =>
  match val with
  | Value.nil => (0, none)
  | Value.bool b => (if b then 1 else 0, none)
  | Value.uint n => (n % 2 ^ 64, none)
  | Value.int i =>
      if i < 0 then
        (0, some (GoError.sentinel "cast.errNegativeNotAllowed"
          "unable to cast negative value"))
      else (i.toNat % 2 ^ 64, none)
  | other =>
      (0, some (fmtErrorf ("unable to cast value of type " ++ other.typeName ++ " to uint64")))

/-- An instance of the verb `%#v` on floats whose fraction is at most one
binary digit, the other values being rendered by their type name. -/
def basicSharpV : SharpVFn := fun val =>
  let float (f : GoFloat) : String :=
    let sign := if f.mant < 0 then "-" else ""
    let n := f.mant.natAbs
    if 0 ≤ f.exp then sign ++ toString (n * 2 ^ f.exp.toNat)
    else if f.exp = -1 then
      sign ++ toString (n / 2) ++ (if n % 2 = 0 then "" else ".5")
    else "?"
  match val with
  | Value.float32 f => float f
  | Value.float64 f => float f
  | other => other.typeName

/-- An instance of `strings.TrimSpace` for blanks, tabs and line ends. -/
def basicTrimSpace (s : String) : String :=
  let white (ch : Char) : Bool := ch = ' ' || ch = '\t' || ch = '\n' || ch = '\r'
  String.mk (((s.toList.dropWhile white).reverse.dropWhile white).reverse)

/-- The number that a non-empty string of decimal digits writes. -/
def basicDecimal (s : String) : Option Nat :=
  if s.toList = [] then none
  else
    s.toList.foldl
      (fun acc ch =>
        match acc with
        | some n => if ch.isDigit then some (10 * n + (ch.toNat - 48)) else none
        | none => none)
      (some 0)

/-- An instance of the library functions: casts on the plain values of each
kind, a non-negative integer being narrowed to `uint32` as Go's `uint32(v)`
does; every string taken for a public key and for a TCP address; heights read
as decimal numbers below `2 ^ 32`. -/
def basicLibs : Libs :=
  { toUint64E := basicToUint64E
    sharpV := basicSharpV
    castToString := fun val =>
      match val with
      | Value.string s => s
      | Value.bool b => if b then "true" else "false"
      | Value.int i => toString i
      | Value.uint n => toString n
      | _ => ""
    castToBool := fun val =>
      match val with
      | Value.bool b => b
      | Value.string s => decide (s = "true")
      | _ => false
    toDurationE := fun val =>
      match val with
      | Value.int i => (i, none)
      | other =>
          (0, some (fmtErrorf ("unable to cast value of type " ++ other.typeName ++
            " to Duration")))
    toStringSliceE := fun val =>
      match val with
      | Value.list xs => (xs, none)
      | other =>
          ([], some (fmtErrorf ("unable to cast value of type " ++ other.typeName ++
            " to []string")))
    toStringMapE := fun val =>
      match val with
      | Value.dict m => (m.map fun e => (e.1, Value.int e.2), none)
      | other =>
          ([], some (fmtErrorf ("unable to cast value of type " ++ other.typeName ++
            " to map[string]interface{}")))
    toUint32E := fun val =>
      match val with
      | Value.uint n => (n % 2 ^ 32, none)
      | Value.int i =>
          if i < 0 then
            (0, some (GoError.sentinel "cast.errNegativeNotAllowed"
              "unable to cast negative value"))
          else (i.toNat % 2 ^ 32, none)
      | other =>
          (0, some (fmtErrorf ("unable to cast value of type " ++ other.typeName ++
            " to uint32")))
    parseUint32 := fun s =>
      match basicDecimal s with
      | some n =>
          if n < 2 ^ 32 then (n, none)
          else (2 ^ 32 - 1, some (GoError.sentinel "strconv.ErrRange" "value out of range"))
      | none => (0, some (GoError.sentinel "strconv.ErrSyntax" "invalid syntax"))
    newPublicKeysFromStrings := fun ss => (ss.map PublicKey.mk, none)
    resolveTCPAddr := fun _ => none
    trimSpace := basicTrimSpace }

/-! ## Vocabulary of the statements -/

/-- The five dependencies that `New` requires. -/
inductive RequiredField where
  | Log
  | EpochState
  | AlphabetState
  | ReputationWrapper
  | ManagerBuilder
  deriving DecidableEq, Repr

/-- All five required dependencies of a bundle are set. -/
def Params.allSet (p : Params) : Bool :=
  p.Log.isSome && p.EpochState.isSome && p.AlphabetState.isSome &&
    p.ReputationWrapper.isSome && p.ManagerBuilder.isSome

/-- The bundle with one required dependency replaced by nil. -/
def Params.without (p : Params) : RequiredField → Params
  | RequiredField.Log => { p with Log := none }
  | RequiredField.EpochState => { p with EpochState := none }
  | RequiredField.AlphabetState => { p with AlphabetState := none }
  | RequiredField.ReputationWrapper => { p with ReputationWrapper := none }
  | RequiredField.ManagerBuilder => { p with ManagerBuilder := none }

/-- A bundle with every dependency set, pool size 2 and notary disabled. -/
def sampleParams : Params :=
  { Log := some ⟨1⟩
    PoolSize := 2
    EpochState := some ⟨2⟩
    AlphabetState := some ⟨3⟩
    ReputationWrapper := some ⟨4, 160⟩
    ManagerBuilder := some ⟨5⟩
    NotaryDisabled := true }

/-- The processor that `New` builds from `sampleParams`. -/
def sampleProcessor : Processor :=
  { log := some ⟨1⟩
    pool := some ⟨2, ⟨true⟩⟩
    epochState := some ⟨2⟩
    alphabetState := some ⟨3⟩
    reputationWrp := some ⟨4, 160⟩
    mngBuilder := some ⟨5⟩
    notaryDisabled := true }

/-- A store in which the network magic is the float `1.5`. -/
def floatMagicConfig : Viper :=
  ⟨[("morph.consensus.magic", Value.float64 ⟨3, -1⟩)]⟩

/-- The closing `if err != nil` of `parseConfigUint64Condition`: the result in
terms of the error, if any, that precedes the wrapping. -/
def wrapUint64Error (key desc : String) (res : Nat) (err : Option GoError) :
    Nat × Option GoError :=
  match err with
  | some e =>
      (res, some (fmtErrorfW ("invalid " ++ desc ++ " '" ++ key ++ "' (unsigned integer): ") e))
  | none => (res, none)

/-- The value stored under a key that is a section. -/
def sectionValue : Value := Value.other "map[string]interface {}"

/-- A store for a committee of four with an in-memory storage, hard forks, a
validators history and a P2P section whose minimum of peers is the given
value, if any. -/
def sampleConfig (minPeers : Option Value) : Viper :=
  ⟨[("morph.consensus", sectionValue),
    ("morph.consensus.magic", Value.int 15405),
    ("morph.consensus.storage", sectionValue),
    ("morph.consensus.storage.type", Value.string "inmemory"),
    ("morph.consensus.committee", Value.list ["key1", "key2", "key3", "key4"]),
    ("morph.consensus.max_traceable_blocks", Value.int 1000),
    ("morph.consensus.hardforks", Value.dict [("Aspidochelone", 0), ("Basilisk", 5)]),
    ("morph.consensus.validators_history", Value.dict [("0", 4), ("12", 1)]),
    ("morph.consensus.p2p", sectionValue),
    ("morph.consensus.p2p.peers", sectionValue)] ++
   (match minPeers with
    | some val => [("morph.consensus.p2p.peers.min", val)]
    | none => [])⟩

/-- The fields of a configuration that the statements on numbers speak of:
network magic, committee, traceable chain length, hard forks and validators
history. -/
def Config.core (c : Config) :
    Nat × List PublicKey × Nat × List (String × Nat) × List (Nat × Nat) :=
  (c.NetworkMagic, c.Committee, c.TraceableChainLength, c.HardForks, c.ValidatorsHistory)

/-- A store for a committee of four with an in-memory storage and the given
validators history. -/
def historyConfig (history : List (String × Int)) : Viper :=
  ⟨[("morph.consensus", sectionValue),
    ("morph.consensus.magic", Value.int 15405),
    ("morph.consensus.storage", sectionValue),
    ("morph.consensus.storage.type", Value.string "inmemory"),
    ("morph.consensus.committee", Value.list ["key1", "key2", "key3", "key4"]),
    ("morph.consensus.validators_history", Value.dict history)]⟩

/-- A store for a committee of four with an in-memory storage and the given
hard forks. -/
def forksConfig (forks : List (String × Int)) : Viper :=
  ⟨[("morph.consensus", sectionValue),
    ("morph.consensus.magic", Value.int 15405),
    ("morph.consensus.storage", sectionValue),
    ("morph.consensus.storage.type", Value.string "inmemory"),
    ("morph.consensus.committee", Value.list ["key1", "key2", "key3", "key4"]),
    ("morph.consensus.hardforks", Value.dict forks)]⟩

/-- Exact quotient `⌈2 m / 3⌉`. -/
def ceilTwoThirds (m : Nat) : Nat := (2 * m + 2) / 3

/-! ## Lemmas on `New` -/

theorem allSet_iff (p : Params) :
    p.allSet = true ↔ ∃ l e a w m, p.Log = some l ∧ p.EpochState = some e ∧
      p.AlphabetState = some a ∧ p.ReputationWrapper = some w ∧ p.ManagerBuilder = some m := by
  rcases p with ⟨l, n, e, a, w, m, b⟩
  cases l <;> cases e <;> cases a <;> cases w <;> cases m <;> simp [Params.allSet]

theorem New_of_allSet (antsNewPool : NewPoolFn) (p : Params) (h : p.allSet = true) :
    New antsNewPool p =
      match antsNewPool p.PoolSize ⟨true⟩ with
      | Except.error err =>
          ⟨none, some (fmtErrorfW "ir/reputation: can't create worker pool: " err),
            [Call.logDebug "reputation worker pool" "size" p.PoolSize,
             Call.antsNewPool p.PoolSize ⟨true⟩]⟩
      | Except.ok pool =>
          ⟨some { log := p.Log
                  pool := some pool
                  epochState := p.EpochState
                  alphabetState := p.AlphabetState
                  reputationWrp := p.ReputationWrapper
                  mngBuilder := p.ManagerBuilder
                  notaryDisabled := p.NotaryDisabled },
           none,
           [Call.logDebug "reputation worker pool" "size" p.PoolSize,
            Call.antsNewPool p.PoolSize ⟨true⟩]⟩ := by
  obtain ⟨l, e, a, w, m, hl, he, ha, hw, hm⟩ := (allSet_iff p).1 h
  simp [New, hl, he, ha, hw, hm]

theorem New_of_not_allSet (antsNewPool : NewPoolFn) (p : Params) (h : p.allSet = false) :
    (New antsNewPool p).proc = none ∧ (New antsNewPool p).calls = [] ∧
      ∃ msg, (New antsNewPool p).err = some (GoError.errorString msg) := by
  rcases p with ⟨l, n, e, a, w, m, b⟩
  cases l <;> cases e <;> cases a <;> cases w <;> cases m <;>
    simp [Params.allSet, New, errorsNew] at h ⊢

/-- A constructed processor holds the dependencies of its parameters, and these
are set. -/
theorem New_proc_fields (antsNewPool : NewPoolFn) (p : Params) (rp : Processor)
    (h : (New antsNewPool p).proc = some rp) :
    p.allSet = true ∧ rp.reputationWrp = p.ReputationWrapper ∧
      rp.notaryDisabled = p.NotaryDisabled ∧ ∃ w, rp.reputationWrp = some w := by
  cases hs : p.allSet with
  | false =>
      have := (New_of_not_allSet antsNewPool p hs).1
      rw [this] at h
      exact absurd h (by simp)
  | true =>
      obtain ⟨l, e, a, w, m, hl, he, ha, hw, hm⟩ := (allSet_iff p).1 hs
      rw [New_of_allSet antsNewPool p hs] at h
      cases hp : antsNewPool p.PoolSize ⟨true⟩ with
      | error err => rw [hp] at h; exact absurd h (by simp)
      | ok pool =>
          rw [hp] at h
          simp only [Option.some.injEq] at h
          subst h
          exact ⟨rfl, rfl, rfl, w, hw⟩

theorem errorsIs_self (e : GoError) : errorsIs e e = true := by
  cases e <;> simp [errorsIs]

/-! ## Construction failures -/

/-- C1, as stated, fails: a bundle missing only `EpochState` and a bundle
missing only `AlphabetState` are two different required fields for which `New`
returns errors with one and the same message. -/
theorem New_missing_field_messages_not_all_distinct :
    (New strictNewPool (sampleParams.without RequiredField.EpochState)).err.map GoError.Error
      = some "ir/reputation: global state is not set" ∧
    (New strictNewPool (sampleParams.without RequiredField.AlphabetState)).err.map GoError.Error
      = some "ir/reputation: global state is not set" ∧
    ¬ ∀ (antsNewPool : NewPoolFn) (p : Params) (f g : RequiredField),
        p.allSet = true → f ≠ g →
        ((New antsNewPool (p.without f)).err.map GoError.Error ≠
          (New antsNewPool (p.without g)).err.map GoError.Error) := by
  refine ⟨by decide, by decide, ?_⟩
  intro h
  exact h strictNewPool sampleParams RequiredField.EpochState RequiredField.AlphabetState
    (by decide) (by decide) (by decide)

/-- C1, amended: for two different required fields `f` and `g`, `New` on a
bundle missing only `f` and on a bundle missing only `g` returns a nil
processor and an error each, and the two messages are equal exactly when the
pair is `EpochState` and `AlphabetState`, whose common message is
"ir/reputation: global state is not set". -/
theorem New_missing_field_messages (antsNewPool : NewPoolFn) (p : Params)
    (f g : RequiredField) (hp : p.allSet = true) (hfg : f ≠ g) :
    ∃ e₁ e₂, New antsNewPool (p.without f) = ⟨none, some e₁, []⟩ ∧
      New antsNewPool (p.without g) = ⟨none, some e₂, []⟩ ∧
      (e₁.Error = e₂.Error ↔
        (f = RequiredField.EpochState ∧ g = RequiredField.AlphabetState) ∨
        (f = RequiredField.AlphabetState ∧ g = RequiredField.EpochState)) ∧
      (e₁.Error = e₂.Error → e₁.Error = "ir/reputation: global state is not set") := by
  obtain ⟨l, e, a, w, m, hl, he, ha, hw, hm⟩ := (allSet_iff p).1 hp
  cases f <;> cases g <;>
    first
    | exact absurd rfl hfg
    | (simp [New, Params.without, errorsNew, GoError.Error, hl, he, ha, hw, hm]; try decide)

theorem New_missing_field_messages_witness :
    sampleParams.allSet = true ∧ RequiredField.Log ≠ RequiredField.ManagerBuilder ∧
    ∃ e₁ e₂, New strictNewPool (sampleParams.without RequiredField.Log) = ⟨none, some e₁, []⟩ ∧
      New strictNewPool (sampleParams.without RequiredField.ManagerBuilder)
        = ⟨none, some e₂, []⟩ ∧
      (e₁.Error = e₂.Error ↔
        (RequiredField.Log = RequiredField.EpochState ∧
          RequiredField.ManagerBuilder = RequiredField.AlphabetState) ∨
        (RequiredField.Log = RequiredField.AlphabetState ∧
          RequiredField.ManagerBuilder = RequiredField.EpochState)) ∧
      (e₁.Error = e₂.Error → e₁.Error = "ir/reputation: global state is not set") :=
  ⟨by decide, by decide,
    New_missing_field_messages strictNewPool sampleParams RequiredField.Log
      RequiredField.ManagerBuilder (by decide) (by decide)⟩

/-- C2: whenever at least one of `Log`, `EpochState`, `AlphabetState`,
`ReputationWrapper`, `ManagerBuilder` is nil, whatever `PoolSize` and
`NotaryDisabled` are, `New` returns a nil processor together with a non-nil
error and makes no call of the worker-pool constructor. -/
theorem New_missing_dependency_fails (antsNewPool : NewPoolFn) (p : Params)
    (h : p.Log = none ∨ p.EpochState = none ∨ p.AlphabetState = none ∨
      p.ReputationWrapper = none ∨ p.ManagerBuilder = none) :
    (New antsNewPool p).proc = none ∧ (New antsNewPool p).err ≠ none ∧
      ∀ size opts, Call.antsNewPool size opts ∉ (New antsNewPool p).calls := by
  have hs : p.allSet = false := by
    rcases p with ⟨l, n, e, a, w, m, b⟩
    rcases h with h | h | h | h | h <;> simp only at h <;> subst h <;>
      simp [Params.allSet]
  obtain ⟨h1, h2, msg, h3⟩ := New_of_not_allSet antsNewPool p hs
  refine ⟨h1, ?_, ?_⟩
  · rw [h3]; simp
  · intro size opts; rw [h2]; simp

theorem New_missing_dependency_fails_witness :
    ((sampleParams.without RequiredField.ReputationWrapper).Log = none ∨
      (sampleParams.without RequiredField.ReputationWrapper).EpochState = none ∨
      (sampleParams.without RequiredField.ReputationWrapper).AlphabetState = none ∨
      (sampleParams.without RequiredField.ReputationWrapper).ReputationWrapper = none ∨
      (sampleParams.without RequiredField.ReputationWrapper).ManagerBuilder = none) ∧
    ((New lenientNewPool (sampleParams.without RequiredField.ReputationWrapper)).proc = none ∧
      (New lenientNewPool (sampleParams.without RequiredField.ReputationWrapper)).err ≠ none ∧
      ∀ size opts, Call.antsNewPool size opts ∉
        (New lenientNewPool (sampleParams.without RequiredField.ReputationWrapper)).calls) :=
  ⟨by decide,
    New_missing_dependency_fails lenientNewPool
      (sampleParams.without RequiredField.ReputationWrapper) (by decide)⟩

/-! ## Listener registrations of a constructed processor -/

theorem notification_parsers_eq (rp : Processor) (w : ClientWrapper)
    (hw : rp.reputationWrp = some w) :
    rp.ListenerNotificationParsers = Except.ok
      (if rp.notaryDisabled then
        [⟨putReputationNotification, w.ContractAddress, some NotificationParser.ParsePut⟩]
      else []) := by
  cases hb : rp.notaryDisabled <;>
    simp [Processor.ListenerNotificationParsers, Processor.contractAddress, hw, hb,
      NotificationParserInfo.zero, NotificationParserInfo.SetType,
      NotificationParserInfo.SetScriptHash, NotificationParserInfo.SetParser]

theorem notification_handlers_eq (rp : Processor) (w : ClientWrapper)
    (hw : rp.reputationWrp = some w) :
    rp.ListenerNotificationHandlers = Except.ok
      (if rp.notaryDisabled then
        [⟨putReputationNotification, w.ContractAddress,
          some ⟨HandlerMethod.handlePutReputation, rp⟩⟩]
      else []) := by
  cases hb : rp.notaryDisabled <;>
    simp [Processor.ListenerNotificationHandlers, Processor.contractAddress, hw, hb,
      NotificationHandlerInfo.zero, NotificationHandlerInfo.SetType,
      NotificationHandlerInfo.SetScriptHash, NotificationHandlerInfo.SetHandler]

theorem notary_parsers_eq (rp : Processor) (w : ClientWrapper)
    (hw : rp.reputationWrp = some w) :
    rp.ListenerNotaryParsers = Except.ok
      [⟨MempoolType.TransactionAdded, NotaryType.PutNotaryEvent, w.ContractAddress,
        some NotaryParser.ParsePutNotary⟩] := by
  simp [Processor.ListenerNotaryParsers, Processor.contractAddress, hw,
    NotaryParserInfo.zero, NotaryParserInfo.SetMempoolType, NotaryParserInfo.SetRequestType,
    NotaryParserInfo.SetScriptHash, NotaryParserInfo.SetParser]

theorem notary_handlers_eq (rp : Processor) (w : ClientWrapper)
    (hw : rp.reputationWrp = some w) :
    rp.ListenerNotaryHandlers = Except.ok
      [⟨MempoolType.TransactionAdded, NotaryType.PutNotaryEvent, w.ContractAddress,
        some ⟨HandlerMethod.handlePutReputation, rp⟩⟩] := by
  simp [Processor.ListenerNotaryHandlers, Processor.contractAddress, hw,
    NotaryHandlerInfo.zero, NotaryHandlerInfo.SetMempoolType, NotaryHandlerInfo.SetRequestType,
    NotaryHandlerInfo.SetScriptHash, NotaryHandlerInfo.SetHandler]

/-- C3: for a processor built by `New`, `ListenerNotificationParsers` and
`ListenerNotificationHandlers` return without panic, each collection is
non-empty if and only if the processor was built with `NotaryDisabled = true`,
and with `NotaryDisabled = false` both are empty. -/
theorem notification_registrations_iff_notaryDisabled (antsNewPool : NewPoolFn)
    (p : Params) (rp : Processor) (h : (New antsNewPool p).proc = some rp) :
    ∃ ps hs, rp.ListenerNotificationParsers = Except.ok ps ∧
      rp.ListenerNotificationHandlers = Except.ok hs ∧
      (ps ≠ [] ↔ p.NotaryDisabled = true) ∧ (hs ≠ [] ↔ p.NotaryDisabled = true) ∧
      (p.NotaryDisabled = false → ps = [] ∧ hs = []) := by
  obtain ⟨_, _, hb, w, hw⟩ := New_proc_fields antsNewPool p rp h
  refine ⟨_, _, notification_parsers_eq rp w hw, notification_handlers_eq rp w hw, ?_⟩
  rw [hb]
  cases p.NotaryDisabled <;> simp

theorem notification_registrations_iff_notaryDisabled_witness :
    (New strictNewPool sampleParams).proc = some sampleProcessor ∧
    ∃ ps hs, sampleProcessor.ListenerNotificationParsers = Except.ok ps ∧
      sampleProcessor.ListenerNotificationHandlers = Except.ok hs ∧
      (ps ≠ [] ↔ sampleParams.NotaryDisabled = true) ∧
      (hs ≠ [] ↔ sampleParams.NotaryDisabled = true) ∧
      (sampleParams.NotaryDisabled = false → ps = [] ∧ hs = []) :=
  ⟨by decide,
    notification_registrations_iff_notaryDisabled strictNewPool sampleParams sampleProcessor
      (by decide)⟩

/-- C4: for a processor `rp` built by `New` and the processor that differs
from it only in the `NotaryDisabled` flag, `ListenerNotaryParsers` returns the
same one-entry collection for both, and `ListenerNotaryHandlers` returns for
both one entry with mempool type `TransactionAdded`, request type
`PutNotaryEvent` and the wrapper's contract address, registering the method
`handlePutReputation` of the processor asked: no component of a notary-path
registration depends on the flag. -/
theorem notary_registrations_independent_of_flag (antsNewPool : NewPoolFn)
    (p : Params) (rp : Processor) (b : Bool) (h : (New antsNewPool p).proc = some rp) :
    ∃ w pe h₁ h₂, p.ReputationWrapper = some w ∧
      rp.ListenerNotaryParsers = Except.ok [pe] ∧
      ({ rp with notaryDisabled := b } : Processor).ListenerNotaryParsers = Except.ok [pe] ∧
      pe.mempoolType = MempoolType.TransactionAdded ∧
      pe.requestType = NotaryType.PutNotaryEvent ∧
      pe.scriptHash = w.ContractAddress ∧
      rp.ListenerNotaryHandlers = Except.ok [h₁] ∧
      ({ rp with notaryDisabled := b } : Processor).ListenerNotaryHandlers = Except.ok [h₂] ∧
      h₁.mempoolType = MempoolType.TransactionAdded ∧
      h₂.mempoolType = MempoolType.TransactionAdded ∧
      h₁.requestType = NotaryType.PutNotaryEvent ∧
      h₂.requestType = NotaryType.PutNotaryEvent ∧
      h₁.scriptHash = w.ContractAddress ∧ h₂.scriptHash = w.ContractAddress ∧
      h₁.h = some ⟨HandlerMethod.handlePutReputation, rp⟩ ∧
      h₂.h = some ⟨HandlerMethod.handlePutReputation, { rp with notaryDisabled := b }⟩ := by
  obtain ⟨_, hr, _, w, hw⟩ := New_proc_fields antsNewPool p rp h
  have hw2 : ({ rp with notaryDisabled := b } : Processor).reputationWrp = some w := hw
  exact ⟨w, _, _, _, hr ▸ hw, notary_parsers_eq rp w hw, notary_parsers_eq _ w hw2,
    rfl, rfl, rfl, notary_handlers_eq rp w hw, notary_handlers_eq _ w hw2,
    rfl, rfl, rfl, rfl, rfl, rfl, rfl, rfl⟩

theorem notary_registrations_independent_of_flag_witness :
    (New strictNewPool sampleParams).proc = some sampleProcessor ∧
    ∃ w pe h₁ h₂, sampleParams.ReputationWrapper = some w ∧
      sampleProcessor.ListenerNotaryParsers = Except.ok [pe] ∧
      ({ sampleProcessor with notaryDisabled := false } : Processor).ListenerNotaryParsers
        = Except.ok [pe] ∧
      pe.mempoolType = MempoolType.TransactionAdded ∧
      pe.requestType = NotaryType.PutNotaryEvent ∧
      pe.scriptHash = w.ContractAddress ∧
      sampleProcessor.ListenerNotaryHandlers = Except.ok [h₁] ∧
      ({ sampleProcessor with notaryDisabled := false } : Processor).ListenerNotaryHandlers
        = Except.ok [h₂] ∧
      h₁.mempoolType = MempoolType.TransactionAdded ∧
      h₂.mempoolType = MempoolType.TransactionAdded ∧
      h₁.requestType = NotaryType.PutNotaryEvent ∧
      h₂.requestType = NotaryType.PutNotaryEvent ∧
      h₁.scriptHash = w.ContractAddress ∧ h₂.scriptHash = w.ContractAddress ∧
      h₁.h = some ⟨HandlerMethod.handlePutReputation, sampleProcessor⟩ ∧
      h₂.h = some ⟨HandlerMethod.handlePutReputation,
        { sampleProcessor with notaryDisabled := false }⟩ :=
  ⟨by decide,
    notary_registrations_independent_of_flag strictNewPool sampleParams sampleProcessor false
      (by decide)⟩

/-! ## Construction: success and worker-pool failure -/

/-- C5: when all five required dependencies are set and the worker-pool
constructor returns a pool, `New` returns a nil error and a processor whose
`log`, `epochState`, `alphabetState`, `reputationWrp`, `mngBuilder` and
`notaryDisabled` equal the corresponding fields of the parameters and whose
`pool` is the pool just created. -/
theorem New_success_wires_fields (antsNewPool : NewPoolFn) (p : Params) (pool : Pool)
    (hp : p.allSet = true) (hpool : antsNewPool p.PoolSize ⟨true⟩ = Except.ok pool) :
    (New antsNewPool p).err = none ∧
      ∃ rp, (New antsNewPool p).proc = some rp ∧
        rp.log = p.Log ∧ rp.epochState = p.EpochState ∧
        rp.alphabetState = p.AlphabetState ∧ rp.reputationWrp = p.ReputationWrapper ∧
        rp.mngBuilder = p.ManagerBuilder ∧ rp.notaryDisabled = p.NotaryDisabled ∧
        rp.pool = some pool := by
  rw [New_of_allSet antsNewPool p hp, hpool]
  exact ⟨rfl, _, rfl, rfl, rfl, rfl, rfl, rfl, rfl, rfl⟩

theorem New_success_wires_fields_witness :
    sampleParams.allSet = true ∧
    strictNewPool sampleParams.PoolSize ⟨true⟩ = Except.ok ⟨2, ⟨true⟩⟩ ∧
    ((New strictNewPool sampleParams).err = none ∧
      ∃ rp, (New strictNewPool sampleParams).proc = some rp ∧
        rp.log = sampleParams.Log ∧ rp.epochState = sampleParams.EpochState ∧
        rp.alphabetState = sampleParams.AlphabetState ∧
        rp.reputationWrp = sampleParams.ReputationWrapper ∧
        rp.mngBuilder = sampleParams.ManagerBuilder ∧
        rp.notaryDisabled = sampleParams.NotaryDisabled ∧
        rp.pool = some ⟨2, ⟨true⟩⟩) :=
  ⟨by decide, rfl,
    New_success_wires_fields strictNewPool sampleParams ⟨2, ⟨true⟩⟩ (by decide) rfl⟩

/-- C6: when all five required dependencies are set and the worker-pool
constructor fails with error `e`, `New` returns a nil processor and an error
that wraps `e` (so `errors.Is(err, e)` holds) and whose message is
"ir/reputation: can't create worker pool: " followed by the message of `e`. -/
theorem New_pool_failure_wraps (antsNewPool : NewPoolFn) (p : Params) (e : GoError)
    (hp : p.allSet = true) (hpool : antsNewPool p.PoolSize ⟨true⟩ = Except.error e) :
    (New antsNewPool p).proc = none ∧
      ∃ err, (New antsNewPool p).err = some err ∧ err.Unwrap = some e ∧
        errorsIs err e = true ∧
        err.Error = "ir/reputation: can't create worker pool: " ++ e.Error := by
  rw [New_of_allSet antsNewPool p hp, hpool]
  refine ⟨rfl, _, rfl, rfl, ?_, rfl⟩
  simp [fmtErrorfW, errorsIs, errorsIs_self]

theorem New_pool_failure_wraps_witness :
    ({ sampleParams with PoolSize := 0 } : Params).allSet = true ∧
    strictNewPool ({ sampleParams with PoolSize := 0 } : Params).PoolSize ⟨true⟩
      = Except.error (GoError.sentinel "ants.ErrInvalidPoolSize" "invalid size for pool") ∧
    ((New strictNewPool { sampleParams with PoolSize := 0 }).proc = none ∧
      ∃ err, (New strictNewPool { sampleParams with PoolSize := 0 }).err = some err ∧
        err.Unwrap = some (GoError.sentinel "ants.ErrInvalidPoolSize" "invalid size for pool") ∧
        errorsIs err (GoError.sentinel "ants.ErrInvalidPoolSize" "invalid size for pool")
          = true ∧
        err.Error = "ir/reputation: can't create worker pool: " ++
          (GoError.sentinel "ants.ErrInvalidPoolSize" "invalid size for pool").Error) :=
  ⟨by decide, rfl,
    New_pool_failure_wraps strictNewPool { sampleParams with PoolSize := 0 }
      (GoError.sentinel "ants.ErrInvalidPoolSize" "invalid size for pool")
      (by decide) rfl⟩

/-! ## Both delivery paths of a processor -/

/-- C7: for a processor built by `New` with notary delivery disabled, the
handler registered by `ListenerNotificationHandlers` and the handler registered
by `ListenerNotaryHandlers` are one and the same: the method
`handlePutReputation` of that processor. -/
theorem notification_and_notary_share_handler (antsNewPool : NewPoolFn)
    (p : Params) (rp : Processor) (h : (New antsNewPool p).proc = some rp)
    (hd : p.NotaryDisabled = true) :
    ∃ nh yh, rp.ListenerNotificationHandlers = Except.ok [nh] ∧
      rp.ListenerNotaryHandlers = Except.ok [yh] ∧ nh.h = yh.h ∧
      nh.h = some ⟨HandlerMethod.handlePutReputation, rp⟩ := by
  obtain ⟨_, _, hb, w, hw⟩ := New_proc_fields antsNewPool p rp h
  refine ⟨⟨putReputationNotification, w.ContractAddress,
      some ⟨HandlerMethod.handlePutReputation, rp⟩⟩, _, ?_,
    notary_handlers_eq rp w hw, rfl, rfl⟩
  rw [notification_handlers_eq rp w hw, hb, hd]
  rfl

theorem notification_and_notary_share_handler_witness :
    (New lenientNewPool sampleParams).proc = some sampleProcessor ∧
    sampleParams.NotaryDisabled = true ∧
    ∃ nh yh, sampleProcessor.ListenerNotificationHandlers = Except.ok [nh] ∧
      sampleProcessor.ListenerNotaryHandlers = Except.ok [yh] ∧ nh.h = yh.h ∧
      nh.h = some ⟨HandlerMethod.handlePutReputation, sampleProcessor⟩ :=
  ⟨by decide, by decide,
    notification_and_notary_share_handler lenientNewPool sampleParams sampleProcessor
      (by decide) (by decide)⟩

/-- C8: for a processor built by `New`, on each delivery path the parser and
handler collections carry matching keys.  Every notification parser entry has
type "reputationPut" and the wrapper's contract address and has a notification
handler entry with the same type and script hash; every notary parser entry
has a notary handler entry with the same mempool type, request type and script
hash; and conversely every handler entry has a parser entry with its key. -/
theorem parser_and_handler_keys_match (antsNewPool : NewPoolFn)
    (p : Params) (rp : Processor) (h : (New antsNewPool p).proc = some rp) :
    ∃ w ps hs nps nhs, p.ReputationWrapper = some w ∧
      rp.ListenerNotificationParsers = Except.ok ps ∧
      rp.ListenerNotificationHandlers = Except.ok hs ∧
      rp.ListenerNotaryParsers = Except.ok nps ∧
      rp.ListenerNotaryHandlers = Except.ok nhs ∧
      (∀ e ∈ ps, e.typ = "reputationPut" ∧ e.scriptHash = w.ContractAddress ∧
        ∃ x ∈ hs, x.typ = e.typ ∧ x.scriptHash = e.scriptHash) ∧
      (∀ x ∈ hs, ∃ e ∈ ps, e.typ = x.typ ∧ e.scriptHash = x.scriptHash) ∧
      (∀ e ∈ nps, ∃ x ∈ nhs, x.mempoolType = e.mempoolType ∧
        x.requestType = e.requestType ∧ x.scriptHash = e.scriptHash) ∧
      (∀ x ∈ nhs, ∃ e ∈ nps, e.mempoolType = x.mempoolType ∧
        e.requestType = x.requestType ∧ e.scriptHash = x.scriptHash) := by
  obtain ⟨_, hr, _, w, hw⟩ := New_proc_fields antsNewPool p rp h
  refine ⟨w, _, _, _, _, hr ▸ hw, notification_parsers_eq rp w hw,
    notification_handlers_eq rp w hw, notary_parsers_eq rp w hw,
    notary_handlers_eq rp w hw, ?_, ?_, ?_, ?_⟩ <;>
  cases rp.notaryDisabled <;> simp [putReputationNotification]

theorem parser_and_handler_keys_match_witness :
    (New strictNewPool sampleParams).proc = some sampleProcessor ∧
    ∃ w ps hs nps nhs, sampleParams.ReputationWrapper = some w ∧
      sampleProcessor.ListenerNotificationParsers = Except.ok ps ∧
      sampleProcessor.ListenerNotificationHandlers = Except.ok hs ∧
      sampleProcessor.ListenerNotaryParsers = Except.ok nps ∧
      sampleProcessor.ListenerNotaryHandlers = Except.ok nhs ∧
      (∀ e ∈ ps, e.typ = "reputationPut" ∧ e.scriptHash = w.ContractAddress ∧
        ∃ x ∈ hs, x.typ = e.typ ∧ x.scriptHash = e.scriptHash) ∧
      (∀ x ∈ hs, ∃ e ∈ ps, e.typ = x.typ ∧ e.scriptHash = x.scriptHash) ∧
      (∀ e ∈ nps, ∃ x ∈ nhs, x.mempoolType = e.mempoolType ∧
        x.requestType = e.requestType ∧ x.scriptHash = e.scriptHash) ∧
      (∀ x ∈ nhs, ∃ e ∈ nps, e.mempoolType = x.mempoolType ∧
        e.requestType = x.requestType ∧ e.scriptHash = x.scriptHash) :=
  ⟨by decide,
    parser_and_handler_keys_match strictNewPool sampleParams sampleProcessor (by decide)⟩

/-- C9, as stated, fails: with all five dependencies set and the negative
pool size -3, `New` calls the worker-pool constructor with -3 and, the
constructor taking a size below 1 for an unlimited pool as ants does, returns
a processor and a nil error. -/
theorem New_negative_pool_size_succeeds :
    ({ sampleParams with PoolSize := -3 } : Params).allSet = true ∧
    (New lenientNewPool { sampleParams with PoolSize := -3 }).err = none ∧
    (New lenientNewPool { sampleParams with PoolSize := -3 }).proc =
      some { sampleProcessor with pool := some ⟨-1, ⟨true⟩⟩ } ∧
    (New lenientNewPool { sampleParams with PoolSize := -3 }).calls =
      [Call.logDebug "reputation worker pool" "size" (-3), Call.antsNewPool (-3) ⟨true⟩] := by
  decide

/-- C9, amended: `New` applies no check of its own to `PoolSize`.  With all
five required dependencies set it logs the size, calls the worker-pool
constructor once with `PoolSize` unchanged and in non-blocking mode, and fails
(nil processor, non-nil error) if and only if that call fails; it succeeds
(processor, nil error) if and only if the call returns a pool, whatever the
sign of `PoolSize`. -/
theorem New_fails_iff_pool_constructor_fails (antsNewPool : NewPoolFn) (p : Params)
    (hp : p.allSet = true) :
    (((New antsNewPool p).proc = none ∧ (New antsNewPool p).err ≠ none) ↔
      ∃ e, antsNewPool p.PoolSize ⟨true⟩ = Except.error e) ∧
    (((New antsNewPool p).proc ≠ none ∧ (New antsNewPool p).err = none) ↔
      ∃ pool, antsNewPool p.PoolSize ⟨true⟩ = Except.ok pool) ∧
    (New antsNewPool p).calls =
      [Call.logDebug "reputation worker pool" "size" p.PoolSize,
       Call.antsNewPool p.PoolSize ⟨true⟩] := by
  rw [New_of_allSet antsNewPool p hp]
  cases hc : antsNewPool p.PoolSize ⟨true⟩ with
  | error e => simp
  | ok pool => simp

theorem New_fails_iff_pool_constructor_fails_witness :
    ({ sampleParams with PoolSize := -3 } : Params).allSet = true ∧
    ((((New lenientNewPool { sampleParams with PoolSize := -3 }).proc = none ∧
        (New lenientNewPool { sampleParams with PoolSize := -3 }).err ≠ none) ↔
      ∃ e, lenientNewPool ({ sampleParams with PoolSize := -3 } : Params).PoolSize ⟨true⟩
        = Except.error e) ∧
    (((New lenientNewPool { sampleParams with PoolSize := -3 }).proc ≠ none ∧
        (New lenientNewPool { sampleParams with PoolSize := -3 }).err = none) ↔
      ∃ pool, lenientNewPool ({ sampleParams with PoolSize := -3 } : Params).PoolSize ⟨true⟩
        = Except.ok pool) ∧
    (New lenientNewPool { sampleParams with PoolSize := -3 }).calls =
      [Call.logDebug "reputation worker pool" "size"
          ({ sampleParams with PoolSize := -3 } : Params).PoolSize,
       Call.antsNewPool ({ sampleParams with PoolSize := -3 } : Params).PoolSize ⟨true⟩]) :=
  ⟨by decide,
    New_fails_iff_pool_constructor_fails lenientNewPool { sampleParams with PoolSize := -3 }
      (by decide)⟩

/-! ## Errors of the unsigned-integer parsers -/

theorem isSet_of_get_ne_nil (v : Viper) (key : String) (h : v.Get key ≠ Value.nil) :
    v.IsSet key = true := by
  simp [Viper.IsSet, h]

/-- A stored `float64` leaves `parseConfigUint64Condition` through the early
return, with the cast error as it is. -/
theorem parseConfigUint64Condition_float64 (toUint64E : ToUint64EFn) (sharpV : SharpVFn)
    (v : Viper) (key desc : String) (cond : Option (Nat → Option GoError)) (f : GoFloat)
    (h : v.Get key = Value.float64 f) :
    parseConfigUint64Condition toUint64E sharpV v key desc cond =
      (0, some (GoError.errorString
        ("unable to cast " ++ sharpV (Value.float64 f) ++ " of type float64 to uint64"))) := by
  have hs : v.IsSet key = true := isSet_of_get_ne_nil v key (by rw [h]; simp)
  simp [parseConfigUint64Condition, hs, h, fmtErrorf, Value.typeName, String.append_assoc]

/-- A stored `float32` leaves `parseConfigUint64Condition` through the early
return, with the cast error as it is. -/
theorem parseConfigUint64Condition_float32 (toUint64E : ToUint64EFn) (sharpV : SharpVFn)
    (v : Viper) (key desc : String) (cond : Option (Nat → Option GoError)) (f : GoFloat)
    (h : v.Get key = Value.float32 f) :
    parseConfigUint64Condition toUint64E sharpV v key desc cond =
      (0, some (GoError.errorString
        ("unable to cast " ++ sharpV (Value.float32 f) ++ " of type float32 to uint64"))) := by
  have hs : v.IsSet key = true := isSet_of_get_ne_nil v key (by rw [h]; simp)
  simp [parseConfigUint64Condition, hs, h, fmtErrorf, Value.typeName, String.append_assoc]

theorem parseConfigUint64Condition_missing (toUint64E : ToUint64EFn) (sharpV : SharpVFn)
    (v : Viper) (key desc : String) (cond : Option (Nat → Option GoError))
    (hs : v.IsSet key = false) :
    parseConfigUint64Condition toUint64E sharpV v key desc cond =
      wrapUint64Error key desc 0 (some errMissingConfig) := by
  simp [parseConfigUint64Condition, wrapUint64Error, hs]

theorem parseConfigUint64Condition_cast (toUint64E : ToUint64EFn) (sharpV : SharpVFn)
    (v : Viper) (key desc : String) (cond : Option (Nat → Option GoError))
    (hs : v.IsSet key = true)
    (h32 : ∀ f, v.Get key ≠ Value.float32 f) (h64 : ∀ f, v.Get key ≠ Value.float64 f) :
    parseConfigUint64Condition toUint64E sharpV v key desc cond =
      wrapUint64Error key desc (toUint64E (v.Get key)).1
        (if (toUint64E (v.Get key)).2.isNone then
          match cond with
          | some c => c (toUint64E (v.Get key)).1
          | none => (toUint64E (v.Get key)).2
        else (toUint64E (v.Get key)).2) := by
  unfold parseConfigUint64Condition wrapUint64Error
  cases hv : v.Get key <;>
    first
    | exact absurd hv (h32 _)
    | exact absurd hv (h64 _)
    | simp [hs]

/-- Every error of `parseConfigUint64Condition` for a stored value that is not
a float, a missing key included, is wrapped under the text naming the
description, the key and the expected type. -/
theorem parseConfigUint64Condition_error_wrapped (toUint64E : ToUint64EFn)
    (sharpV : SharpVFn) (v : Viper) (key desc : String)
    (cond : Option (Nat → Option GoError)) (e : GoError)
    (h32 : ∀ f, v.Get key ≠ Value.float32 f) (h64 : ∀ f, v.Get key ≠ Value.float64 f)
    (he : (parseConfigUint64Condition toUint64E sharpV v key desc cond).2 = some e) :
    ∃ inner, e = GoError.wrapError
      ("invalid " ++ desc ++ " '" ++ key ++ "' (unsigned integer): " ++ inner.Error) inner := by
  have key_fact : ∀ res err, (wrapUint64Error key desc res err).2 = some e →
      ∃ inner, e = GoError.wrapError
        ("invalid " ++ desc ++ " '" ++ key ++ "' (unsigned integer): " ++ inner.Error) inner := by
    intro res err h
    cases err with
    | none => simp [wrapUint64Error] at h
    | some inner =>
        simp [wrapUint64Error, fmtErrorfW] at h
        exact ⟨inner, h.symm⟩
  cases hs : v.IsSet key with
  | false =>
      rw [parseConfigUint64Condition_missing toUint64E sharpV v key desc cond hs] at he
      exact key_fact _ _ he
  | true =>
      rw [parseConfigUint64Condition_cast toUint64E sharpV v key desc cond hs h32 h64] at he
      exact key_fact _ _ he

/-- C10, the code at a failing input: with the network magic stored as the
float `1.5`, `parseConfigUint64Range` returns, whatever the cast and rendering
functions, the bare cast error of the early return, not wrapped under the
"invalid ... (unsigned integer)" text; with the float rendered as `1.5` its
message contains neither the key nor "(unsigned integer)", whereas the same
key holding a negative integer yields a message naming both. -/
theorem parseConfigUint64Range_float_error_unnamed :
    (∀ (toUint64E : ToUint64EFn) (sharpV : SharpVFn),
      parseConfigUint64Range toUint64E sharpV floatMagicConfig
          "morph.consensus.magic" "network magic" 1 4294967295 =
        (0, some (GoError.errorString ("unable to cast " ++
          sharpV (Value.float64 ⟨3, -1⟩) ++ " of type float64 to uint64")))) ∧
    (parseConfigUint64Range basicToUint64E basicSharpV floatMagicConfig
        "morph.consensus.magic" "network magic" 1 4294967295).2.map GoError.Error =
      some "unable to cast 1.5 of type float64 to uint64" ∧
    ¬ ("morph.consensus.magic".toList <:+:
        "unable to cast 1.5 of type float64 to uint64".toList) ∧
    ¬ ("(unsigned integer)".toList <:+:
        "unable to cast 1.5 of type float64 to uint64".toList) ∧
    (parseConfigUint64Range basicToUint64E basicSharpV
        ⟨[("morph.consensus.magic", Value.int (-1))]⟩
        "morph.consensus.magic" "network magic" 1 4294967295).2.map GoError.Error =
      some ("invalid network magic 'morph.consensus.magic' (unsigned integer): " ++
        "unable to cast negative value") := by
  refine ⟨?_, by decide, by decide, by decide, by decide⟩
  intro toUint64E sharpV
  exact parseConfigUint64Condition_float64 toUint64E sharpV floatMagicConfig _ _ _ ⟨3, -1⟩
    (by decide)

/-! ## Booleans and the auto-deployment flag -/

theorem parseConfigBool_unset (lib : Libs) (v : Viper) (key desc : String)
    (hs : v.IsSet key = false) :
    parseConfigBool lib v key desc =
      (false, some (fmtErrorfW ("invalid " ++ desc ++ " '" ++ key ++ "' (boolean): ")
        errMissingConfig)) := by
  simp [parseConfigBool, hs]

theorem parseConfigBool_set (lib : Libs) (v : Viper) (key desc : String)
    (hs : v.IsSet key = true) :
    parseConfigBool lib v key desc =
      if v.GetString lib key = "false" then (false, none)
      else if v.GetString lib key = "true" then (true, none)
      else (false, some (fmtErrorfW ("invalid " ++ desc ++ " '" ++ key ++ "' (boolean): ")
        (errorsNew "neither true nor false"))) := by
  unfold parseConfigBool
  simp only [hs, Bool.not_true, Bool.false_eq_true, if_false, Option.isNone_none, if_true]
  split_ifs <;> rfl

theorem errorsIs_wrap_missing (pre : String) :
    errorsIs (fmtErrorfW pre errMissingConfig) errMissingConfig = true := by
  simp [fmtErrorfW, errorsIs, errMissingConfig]

theorem errorsIs_wrap_errorString (pre msg : String) :
    errorsIs (fmtErrorfW pre (GoError.errorString msg)) errMissingConfig = false := by
  simp [fmtErrorfW, errorsIs, errMissingConfig]

/-- C18: `parseConfigBool` returns `(true, nil)` if and only if the key is set
and the string form of its value is exactly "true", returns `(false, nil)` if
and only if the key is set and the string form is exactly "false", and returns
an error exactly in every other case (key not set, or any other string). -/
theorem parseConfigBool_spec (lib : Libs) (v : Viper) (key desc : String) :
    (parseConfigBool lib v key desc = (true, none) ↔
      v.IsSet key = true ∧ v.GetString lib key = "true") ∧
    (parseConfigBool lib v key desc = (false, none) ↔
      v.IsSet key = true ∧ v.GetString lib key = "false") ∧
    ((parseConfigBool lib v key desc).2 ≠ none ↔
      ¬ (v.IsSet key = true ∧
        (v.GetString lib key = "true" ∨ v.GetString lib key = "false"))) := by
  cases hs : v.IsSet key with
  | false => simp [parseConfigBool_unset lib v key desc hs]
  | true =>
      rw [parseConfigBool_set lib v key desc hs]
      by_cases hf : v.GetString lib key = "false"
      · simp [hf]
      · by_cases ht : v.GetString lib key = "true"
        · simp [ht]
        · simp [hf, ht]

/-- C11: `isAutoDeploymentMode` returns an error if and only if the key
"fschain_autodeploy" is set to a value whose string form is neither "true" nor
"false"; when the key is not set it returns `(false, nil)`, and when it is set
to "true" or "false" it returns that boolean with a nil error. -/
theorem isAutoDeploymentMode_spec (lib : Libs) (cfg : Viper) :
    ((isAutoDeploymentMode lib cfg).2 ≠ none ↔
      cfg.IsSet "fschain_autodeploy" = true ∧
        cfg.GetString lib "fschain_autodeploy" ≠ "true" ∧
        cfg.GetString lib "fschain_autodeploy" ≠ "false") ∧
    (cfg.IsSet "fschain_autodeploy" = false → isAutoDeploymentMode lib cfg = (false, none)) ∧
    (cfg.IsSet "fschain_autodeploy" = true → cfg.GetString lib "fschain_autodeploy" = "true" →
      isAutoDeploymentMode lib cfg = (true, none)) ∧
    (cfg.IsSet "fschain_autodeploy" = true → cfg.GetString lib "fschain_autodeploy" = "false" →
      isAutoDeploymentMode lib cfg = (false, none)) := by
  unfold isAutoDeploymentMode
  cases hs : cfg.IsSet "fschain_autodeploy" with
  | false =>
      rw [parseConfigBool_unset lib cfg _ _ hs]
      simp [errorsIs_wrap_missing]
  | true =>
      rw [parseConfigBool_set lib cfg _ _ hs]
      by_cases hf : cfg.GetString lib "fschain_autodeploy" = "false"
      · simp [hf]
      · by_cases ht : cfg.GetString lib "fschain_autodeploy" = "true"
        · simp [ht]
        · simp [hf, ht, errorsNew, errorsIs_wrap_errorString]

/-! ## Results of the unsigned-integer parsers -/

/-- When and with what `parseConfigUint64Range` succeeds. -/
theorem parseConfigUint64Range_ok (toUint64E : ToUint64EFn) (sharpV : SharpVFn)
    (v : Viper) (key desc : String) (min max : Nat) :
    ((parseConfigUint64Range toUint64E sharpV v key desc min max).2 = none ↔
      v.IsSet key = true ∧ (∀ f, v.Get key ≠ Value.float32 f) ∧
        (∀ f, v.Get key ≠ Value.float64 f) ∧ (toUint64E (v.Get key)).2 = none ∧
        min ≤ (toUint64E (v.Get key)).1 ∧ (toUint64E (v.Get key)).1 ≤ max) ∧
    ((parseConfigUint64Range toUint64E sharpV v key desc min max).2 = none →
      (parseConfigUint64Range toUint64E sharpV v key desc min max).1 =
        (toUint64E (v.Get key)).1) := by
  unfold parseConfigUint64Range
  cases hs : v.IsSet key with
  | false =>
      rw [parseConfigUint64Condition_missing toUint64E sharpV v key desc _ hs]
      simp [wrapUint64Error]
  | true =>
      by_cases h32 : ∃ f, v.Get key = Value.float32 f
      · obtain ⟨f, hf⟩ := h32
        rw [parseConfigUint64Condition_float32 toUint64E sharpV v key desc _ f hf]
        simp [hf]
      · by_cases h64 : ∃ f, v.Get key = Value.float64 f
        · obtain ⟨f, hf⟩ := h64
          rw [parseConfigUint64Condition_float64 toUint64E sharpV v key desc _ f hf]
          simp [hf]
        · have h32' : ∀ f, v.Get key ≠ Value.float32 f := fun f hf => h32 ⟨f, hf⟩
          have h64' : ∀ f, v.Get key ≠ Value.float64 f := fun f hf => h64 ⟨f, hf⟩
          rw [parseConfigUint64Condition_cast toUint64E sharpV v key desc _ hs h32' h64']
          cases he : (toUint64E (v.Get key)).2 with
          | some e => simp [wrapUint64Error, h32', h64']
          | none =>
              by_cases hr : (toUint64E (v.Get key)).1 < min ∨ (toUint64E (v.Get key)).1 > max
              · have hn : ¬ (min ≤ (toUint64E (v.Get key)).1 ∧
                    (toUint64E (v.Get key)).1 ≤ max) := by omega
                simp [wrapUint64Error, hr, h32', h64', hn]
              · have hn : min ≤ (toUint64E (v.Get key)).1 ∧
                    (toUint64E (v.Get key)).1 ≤ max := by omega
                simp [wrapUint64Error, hr, h32', h64', hn]

/-- C14: `parseConfigUint64Range` returns a value with a nil error if and only
if the key is set, the stored value is neither a `float32` nor a `float64`
(whatever the number it holds), the value casts to `uint64`, and the cast value
lies between `min` and `max`; the value returned then is exactly the cast
value. -/
theorem parseConfigUint64Range_success_iff (toUint64E : ToUint64EFn) (sharpV : SharpVFn)
    (v : Viper) (key desc : String) (min max : Nat) :
    ((parseConfigUint64Range toUint64E sharpV v key desc min max).2 = none ↔
      v.IsSet key = true ∧ (∀ f, v.Get key ≠ Value.float32 f) ∧
        (∀ f, v.Get key ≠ Value.float64 f) ∧ (toUint64E (v.Get key)).2 = none ∧
        min ≤ (toUint64E (v.Get key)).1 ∧ (toUint64E (v.Get key)).1 ≤ max) ∧
    ((parseConfigUint64Range toUint64E sharpV v key desc min max).2 = none →
      (parseConfigUint64Range toUint64E sharpV v key desc min max).1 =
        (toUint64E (v.Get key)).1) := by
  have h := parseConfigUint64Range_ok toUint64E sharpV v key desc min max
  constructor
  · exact h.1
  · intro hok
    exact h.2 hok

/-- The errors of `parseConfigUint64Range` that match `errMissingConfig`, for
a cast function none of whose errors does. -/
theorem parseConfigUint64Range_missing (toUint64E : ToUint64EFn) (sharpV : SharpVFn)
    (v : Viper) (key desc : String) (min max : Nat)
    (hlib : ∀ val e, (toUint64E val).2 = some e → errorsIs e errMissingConfig = false) :
    (v.IsSet key = false →
      parseConfigUint64Range toUint64E sharpV v key desc min max =
        (0, some (fmtErrorfW ("invalid " ++ desc ++ " '" ++ key ++ "' (unsigned integer): ")
          errMissingConfig))) ∧
    (v.IsSet key = true → ∀ e,
      (parseConfigUint64Range toUint64E sharpV v key desc min max).2 = some e →
        errorsIs e errMissingConfig = false) := by
  unfold parseConfigUint64Range
  constructor
  · intro hs
    rw [parseConfigUint64Condition_missing toUint64E sharpV v key desc _ hs]
    rfl
  · intro hs e he
    by_cases h32 : ∃ f, v.Get key = Value.float32 f
    · obtain ⟨f, hf⟩ := h32
      rw [parseConfigUint64Condition_float32 toUint64E sharpV v key desc _ f hf] at he
      simp only [Option.some.injEq] at he
      subst he
      simp [errorsIs, errMissingConfig]
    · by_cases h64 : ∃ f, v.Get key = Value.float64 f
      · obtain ⟨f, hf⟩ := h64
        rw [parseConfigUint64Condition_float64 toUint64E sharpV v key desc _ f hf] at he
        simp only [Option.some.injEq] at he
        subst he
        simp [errorsIs, errMissingConfig]
      · have h32' : ∀ f, v.Get key ≠ Value.float32 f := fun f hf => h32 ⟨f, hf⟩
        have h64' : ∀ f, v.Get key ≠ Value.float64 f := fun f hf => h64 ⟨f, hf⟩
        rw [parseConfigUint64Condition_cast toUint64E sharpV v key desc _ hs h32' h64'] at he
        cases hc : (toUint64E (v.Get key)).2 with
        | some ce =>
            have := hlib _ _ hc
            simp [wrapUint64Error, hc] at he
            subst he
            simp [fmtErrorfW, errorsIs, errMissingConfig] at this ⊢
            exact this
        | none =>
            by_cases hr : (toUint64E (v.Get key)).1 < min ∨ (toUint64E (v.Get key)).1 > max
            · simp [wrapUint64Error, hc, hr] at he
              subst he
              simp [fmtErrorfW, fmtErrorf, errorsIs, errMissingConfig]
            · simp [wrapUint64Error, hc, hr] at he

theorem basicToUint64E_not_missing (val : Value) (e : GoError)
    (h : (basicToUint64E val).2 = some e) : errorsIs e errMissingConfig = false := by
  unfold basicToUint64E at h
  split at h <;> (try split at h) <;> simp at h <;> subst h <;>
    simp [errorsIs, errMissingConfig, fmtErrorf]

theorem unlessMissing_eq_none (err : Option GoError) :
    unlessMissing err = none ↔
      err = none ∨ ∃ e, err = some e ∧ errorsIs e errMissingConfig = true := by
  cases err with
  | none => simp [unlessMissing]
  | some e => cases h : errorsIs e errMissingConfig <;> simp [unlessMissing, h]

/-- C17: for a cast function none of whose errors matches `errMissingConfig`,
the error returned by `parseConfigUint64Range` satisfies
`errors.Is(err, errMissingConfig)` if and only if the key is not set.  A key
that is not set always yields such an error.  A key that is set to a
floating-point value, to a value that does not cast, or to a value whose cast
is below `min` or above `max` always yields an error too, and that error does
not match `errMissingConfig`.  So a caller that tolerates the missing-value
error goes on only after a success or for a key that is not set, never with an
invalid value. -/
theorem parseConfigUint64Range_missing_iff (toUint64E : ToUint64EFn) (sharpV : SharpVFn)
    (v : Viper) (key desc : String) (min max : Nat)
    (hlib : ∀ val e, (toUint64E val).2 = some e → errorsIs e errMissingConfig = false) :
    (v.IsSet key = false → ∃ e,
      (parseConfigUint64Range toUint64E sharpV v key desc min max).2 = some e ∧
        errorsIs e errMissingConfig = true) ∧
    (v.IsSet key = true →
      ((∃ f, v.Get key = Value.float32 f) ∨ (∃ f, v.Get key = Value.float64 f) ∨
        (toUint64E (v.Get key)).2 ≠ none ∨ (toUint64E (v.Get key)).1 < min ∨
        max < (toUint64E (v.Get key)).1) →
      ∃ e, (parseConfigUint64Range toUint64E sharpV v key desc min max).2 = some e ∧
        errorsIs e errMissingConfig = false) ∧
    (∀ e, (parseConfigUint64Range toUint64E sharpV v key desc min max).2 = some e →
      (errorsIs e errMissingConfig = true ↔ v.IsSet key = false)) ∧
    (unlessMissing (parseConfigUint64Range toUint64E sharpV v key desc min max).2 = none ↔
      (parseConfigUint64Range toUint64E sharpV v key desc min max).2 = none ∨
        v.IsSet key = false) := by
  obtain ⟨hm, hset⟩ := parseConfigUint64Range_missing toUint64E sharpV v key desc min max hlib
  obtain ⟨hiff, _⟩ := parseConfigUint64Range_ok toUint64E sharpV v key desc min max
  have h1 : v.IsSet key = false → ∃ e,
      (parseConfigUint64Range toUint64E sharpV v key desc min max).2 = some e ∧
        errorsIs e errMissingConfig = true := by
    intro hs
    rw [hm hs]
    exact ⟨_, rfl, errorsIs_wrap_missing _⟩
  have h2 : ∀ e, (parseConfigUint64Range toUint64E sharpV v key desc min max).2 = some e →
      (errorsIs e errMissingConfig = true ↔ v.IsSet key = false) := by
    intro e he
    cases hs : v.IsSet key with
    | false =>
        rw [hm hs] at he
        simp only [Option.some.injEq] at he
        subst he
        simp [errorsIs_wrap_missing]
    | true => simp [hset hs e he]
  have h3 : v.IsSet key = true →
      ((∃ f, v.Get key = Value.float32 f) ∨ (∃ f, v.Get key = Value.float64 f) ∨
        (toUint64E (v.Get key)).2 ≠ none ∨ (toUint64E (v.Get key)).1 < min ∨
        max < (toUint64E (v.Get key)).1) →
      ∃ e, (parseConfigUint64Range toUint64E sharpV v key desc min max).2 = some e ∧
        errorsIs e errMissingConfig = false := by
    intro hs hbad
    cases hr : (parseConfigUint64Range toUint64E sharpV v key desc min max).2 with
    | some e => exact ⟨e, rfl, hset hs e hr⟩
    | none =>
        obtain ⟨_, h32, h64, hc, hlo, hhi⟩ := hiff.1 hr
        rcases hbad with ⟨f, hf⟩ | ⟨f, hf⟩ | hne | hlt | hgt
        · exact absurd hf (h32 f)
        · exact absurd hf (h64 f)
        · exact absurd hc hne
        · omega
        · omega
  refine ⟨h1, h3, h2, ?_⟩
  rw [unlessMissing_eq_none]
  constructor
  · rintro (h | ⟨e, he, hi⟩)
    · exact Or.inl h
    · exact Or.inr ((h2 e he).1 hi)
  · rintro (h | hs)
    · exact Or.inl h
    · obtain ⟨e, he, hi⟩ := h1 hs
      exact Or.inr ⟨e, he, hi⟩

theorem parseConfigUint64Range_missing_iff_witness :
    (∀ val e, (basicToUint64E val).2 = some e → errorsIs e errMissingConfig = false) ∧
    ((floatMagicConfig.IsSet "morph.consensus.magic" = false → ∃ e,
      (parseConfigUint64Range basicToUint64E basicSharpV floatMagicConfig
        "morph.consensus.magic" "network magic" 1 4294967295).2 = some e ∧
        errorsIs e errMissingConfig = true) ∧
    (floatMagicConfig.IsSet "morph.consensus.magic" = true →
      ((∃ f, floatMagicConfig.Get "morph.consensus.magic" = Value.float32 f) ∨
        (∃ f, floatMagicConfig.Get "morph.consensus.magic" = Value.float64 f) ∨
        (basicToUint64E (floatMagicConfig.Get "morph.consensus.magic")).2 ≠ none ∨
        (basicToUint64E (floatMagicConfig.Get "morph.consensus.magic")).1 < 1 ∨
        4294967295 < (basicToUint64E (floatMagicConfig.Get "morph.consensus.magic")).1) →
      ∃ e, (parseConfigUint64Range basicToUint64E basicSharpV floatMagicConfig
        "morph.consensus.magic" "network magic" 1 4294967295).2 = some e ∧
        errorsIs e errMissingConfig = false) ∧
    (∀ e, (parseConfigUint64Range basicToUint64E basicSharpV floatMagicConfig
        "morph.consensus.magic" "network magic" 1 4294967295).2 = some e →
      (errorsIs e errMissingConfig = true ↔
        floatMagicConfig.IsSet "morph.consensus.magic" = false)) ∧
    (unlessMissing (parseConfigUint64Range basicToUint64E basicSharpV floatMagicConfig
        "morph.consensus.magic" "network magic" 1 4294967295).2 = none ↔
      (parseConfigUint64Range basicToUint64E basicSharpV floatMagicConfig
        "morph.consensus.magic" "network magic" 1 4294967295).2 = none ∨
        floatMagicConfig.IsSet "morph.consensus.magic" = false)) ∧
    floatMagicConfig.IsSet "morph.consensus.magic" = true ∧
    floatMagicConfig.Get "morph.consensus.magic" = Value.float64 ⟨3, -1⟩ ∧
    (parseConfigUint64Range basicToUint64E basicSharpV floatMagicConfig
      "morph.consensus.magic" "network magic" 1 4294967295).2 ≠ none :=
  ⟨basicToUint64E_not_missing,
    parseConfigUint64Range_missing_iff basicToUint64E basicSharpV floatMagicConfig
      "morph.consensus.magic" "network magic" 1 4294967295 basicToUint64E_not_missing,
    by decide, by decide, by decide⟩

/-! ## The parts of `parseBlockchainConfig` -/

theorem andThen_none (r : Config × Option GoError) (f : Config → Config × Option GoError)
    (h : (andThen r f).2 = none) : r.2 = none ∧ andThen r f = f r.1 := by
  unfold andThen at h ⊢
  cases hr : r.2 with
  | some e => simp [hr] at h
  | none => simp

theorem andThen_core (r : Config × Option GoError) (f : Config → Config × Option GoError)
    (hf : ∀ c, (f c).1.core = c.core) : (andThen r f).1.core = r.1.core := by
  unfold andThen
  split
  · rfl
  · exact hf _

theorem parseMagic_frame (lib : Libs) (v : Viper) (c : Config) :
    (parseMagic lib v c).1.Committee = c.Committee ∧
    (parseMagic lib v c).1.TraceableChainLength = c.TraceableChainLength ∧
    (parseMagic lib v c).1.HardForks = c.HardForks ∧
    (parseMagic lib v c).1.ValidatorsHistory = c.ValidatorsHistory := by
  unfold parseMagic
  simp only []
  split <;> exact ⟨rfl, rfl, rfl, rfl⟩

theorem parseStorage_frame (lib : Libs) (v : Viper) (c : Config) :
    (parseStorage lib v c).1.core = c.core := by
  unfold parseStorage
  simp only []
  split_ifs <;> rfl

theorem parseCommittee_frame (lib : Libs) (v : Viper) (c : Config) :
    (parseCommittee lib v c).1.NetworkMagic = c.NetworkMagic ∧
    (parseCommittee lib v c).1.TraceableChainLength = c.TraceableChainLength ∧
    (parseCommittee lib v c).1.HardForks = c.HardForks ∧
    (parseCommittee lib v c).1.ValidatorsHistory = c.ValidatorsHistory := by
  unfold parseCommittee
  simp only []
  split
  · exact ⟨rfl, rfl, rfl, rfl⟩
  · split_ifs <;> exact ⟨rfl, rfl, rfl, rfl⟩

theorem parseBlockInterval_frame (lib : Libs) (v : Viper) (c : Config) :
    (parseBlockInterval lib v c).1.core = c.core := rfl

theorem parseTraceableChainLength_frame (lib : Libs) (v : Viper) (c : Config) :
    (parseTraceableChainLength lib v c).1.NetworkMagic = c.NetworkMagic ∧
    (parseTraceableChainLength lib v c).1.Committee = c.Committee ∧
    (parseTraceableChainLength lib v c).1.HardForks = c.HardForks ∧
    (parseTraceableChainLength lib v c).1.ValidatorsHistory = c.ValidatorsHistory := by
  unfold parseTraceableChainLength
  simp only []
  split <;> exact ⟨rfl, rfl, rfl, rfl⟩

theorem parseSeedNodes_frame (lib : Libs) (v : Viper) (c : Config) :
    (parseSeedNodes lib v c).1.core = c.core := rfl

theorem parseHardForks_frame (lib : Libs) (v : Viper) (c : Config) :
    (parseHardForks lib v c).1.NetworkMagic = c.NetworkMagic ∧
    (parseHardForks lib v c).1.Committee = c.Committee ∧
    (parseHardForks lib v c).1.TraceableChainLength = c.TraceableChainLength ∧
    (parseHardForks lib v c).1.ValidatorsHistory = c.ValidatorsHistory := by
  unfold parseHardForks
  simp only []
  split_ifs <;> exact ⟨rfl, rfl, rfl, rfl⟩

theorem parseValidatorsHistory_frame (lib : Libs) (v : Viper) (c : Config) :
    (parseValidatorsHistory lib v c).1.NetworkMagic = c.NetworkMagic ∧
    (parseValidatorsHistory lib v c).1.Committee = c.Committee ∧
    (parseValidatorsHistory lib v c).1.TraceableChainLength = c.TraceableChainLength ∧
    (parseValidatorsHistory lib v c).1.HardForks = c.HardForks := by
  unfold parseValidatorsHistory
  simp only []
  split_ifs <;> exact ⟨rfl, rfl, rfl, rfl⟩

theorem parseRPCTLS_frame (lib : Libs) (v : Viper) (c : Config) :
    (parseRPCTLS lib v c).1.core = c.core := by
  unfold parseRPCTLS
  simp only []
  repeat' split
  all_goals rfl

theorem parseRPC_frame (lib : Libs) (v : Viper) (c : Config) :
    (parseRPC lib v c).1.core = c.core := by
  unfold parseRPC
  simp only []
  split_ifs
  · rw [andThen_core _ _ (parseRPCTLS_frame lib v)]
    rfl
  · rfl

theorem parseP2PPeers_frame (lib : Libs) (v : Viper) (c : Config) :
    (parseP2PPeers lib v c).1.core = c.core := by
  unfold parseP2PPeers
  simp only []
  split
  · split
    · rfl
    · split
      · rfl
      · split <;> rfl
  · rfl

theorem parseP2PPing_frame (lib : Libs) (v : Viper) (c : Config) :
    (parseP2PPing lib v c).1.core = c.core ∧
      (parseP2PPing lib v c).1.P2P.MinPeers = c.P2P.MinPeers := by
  unfold parseP2PPing
  simp only []
  split_ifs
  · split <;> exact ⟨rfl, rfl⟩
  · exact ⟨rfl, rfl⟩

theorem parseP2P_frame (lib : Libs) (v : Viper) (c : Config) :
    (parseP2P lib v c).1.core = c.core := by
  unfold parseP2P
  simp only []
  split_ifs
  · rw [andThen_core]
    · rfl
    · intro c1
      rw [andThen_core]
      · rfl
      · intro c2
        rw [andThen_core]
        · rfl
        · intro c3
          rw [andThen_core _ _ (fun c => (parseP2PPing_frame lib v c).1)]
          exact parseP2PPeers_frame lib v c3
  · rfl

/-- A successful `parseBlockchainConfig` is the succession of its parts, each
of them successful. -/
theorem parseBlockchainConfig_parts (lib : Libs) (v : Viper) (lg : Option Logger)
    (h : (parseBlockchainConfig lib v lg).2 = none) :
    ∃ c1 c2 c3 c4 c5 c6 c7 c8 c9 c10,
      parseMagic lib v Config.zero = (c1, none) ∧
      parseStorage lib v c1 = (c2, none) ∧
      parseCommittee lib v c2 = (c3, none) ∧
      parseBlockInterval lib v c3 = (c4, none) ∧
      parseTraceableChainLength lib v c4 = (c5, none) ∧
      parseSeedNodes lib v c5 = (c6, none) ∧
      parseHardForks lib v c6 = (c7, none) ∧
      parseValidatorsHistory lib v c7 = (c8, none) ∧
      parseRPC lib v c8 = (c9, none) ∧
      parseP2P lib v c9 = (c10, none) ∧
      (parseBlockchainConfig lib v lg).1 = { c10 with Logger := lg } := by
  unfold parseBlockchainConfig at h ⊢
  simp only [] at h ⊢
  split_ifs at h ⊢ with hroot
  obtain ⟨h1, e1⟩ := andThen_none _ _ h
  rw [e1] at h ⊢
  obtain ⟨h2, e2⟩ := andThen_none _ _ h
  rw [e2] at h ⊢
  obtain ⟨h3, e3⟩ := andThen_none _ _ h
  rw [e3] at h ⊢
  obtain ⟨h4, e4⟩ := andThen_none _ _ h
  rw [e4] at h ⊢
  obtain ⟨h5, e5⟩ := andThen_none _ _ h
  rw [e5] at h ⊢
  obtain ⟨h6, e6⟩ := andThen_none _ _ h
  rw [e6] at h ⊢
  obtain ⟨h7, e7⟩ := andThen_none _ _ h
  rw [e7] at h ⊢
  obtain ⟨h8, e8⟩ := andThen_none _ _ h
  rw [e8] at h ⊢
  obtain ⟨h9, e9⟩ := andThen_none _ _ h
  rw [e9] at h ⊢
  obtain ⟨h10, e10⟩ := andThen_none _ _ h
  rw [e10]
  exact ⟨_, _, _, _, _, _, _, _, _, _, Prod.ext rfl h1, Prod.ext rfl h2, Prod.ext rfl h3,
    Prod.ext rfl h4, Prod.ext rfl h5, Prod.ext rfl h6, Prod.ext rfl h7, Prod.ext rfl h8,
    Prod.ext rfl h9, Prod.ext rfl h10, rfl⟩

/-! ## What the successful parts store -/

theorem parseMagic_ok (lib : Libs) (v : Viper) (c c' : Config)
    (h : parseMagic lib v c = (c', none)) :
    c'.NetworkMagic = (lib.toUint64E (v.Get (rootSection ++ ".magic"))).1 ∧
      1 ≤ c'.NetworkMagic ∧ c'.NetworkMagic ≤ MaxUint32 := by
  unfold parseMagic at h
  simp only [] at h
  split at h
  · simp at h
  · rename_i hr
    obtain ⟨hiff, hval⟩ := parseConfigUint64Range_ok lib.toUint64E lib.sharpV v
      (rootSection ++ ".magic") "network magic" 1 MaxUint32
    obtain ⟨_, _, _, _, hlo, hhi⟩ := hiff.1 hr
    have hv := hval hr
    simp only [Prod.mk.injEq, and_true] at h
    subst h
    simp only [hv]
    have hlt : (lib.toUint64E (v.Get (rootSection ++ ".magic"))).1 < 2 ^ 32 := by
      unfold MaxUint32 at hhi
      omega
    rw [Nat.mod_eq_of_lt hlt]
    exact ⟨rfl, hlo, hhi⟩

theorem parseTraceableChainLength_ok (lib : Libs) (v : Viper) (c c' : Config)
    (hlib : ∀ val e, (lib.toUint64E val).2 = some e → errorsIs e errMissingConfig = false)
    (h : parseTraceableChainLength lib v c = (c', none)) :
    (v.IsSet (rootSection ++ ".max_traceable_blocks") = false → c'.TraceableChainLength = 0) ∧
    (v.IsSet (rootSection ++ ".max_traceable_blocks") = true →
      c'.TraceableChainLength =
        (lib.toUint64E (v.Get (rootSection ++ ".max_traceable_blocks"))).1 ∧
      1 ≤ c'.TraceableChainLength ∧ c'.TraceableChainLength ≤ MaxUint32) := by
  unfold parseTraceableChainLength at h
  simp only [] at h
  split at h
  · simp at h
  · rename_i hr
    simp only [Prod.mk.injEq, and_true] at h
    subst h
    obtain ⟨hm, hset⟩ := parseConfigUint64Range_missing lib.toUint64E lib.sharpV v
      (rootSection ++ ".max_traceable_blocks") "traceable chain length" 1 MaxUint32 hlib
    obtain ⟨hiff, hval⟩ := parseConfigUint64Range_ok lib.toUint64E lib.sharpV v
      (rootSection ++ ".max_traceable_blocks") "traceable chain length" 1 MaxUint32
    constructor
    · intro hs
      simp [hm hs]
    · intro hs
      have hnone : (parseConfigUint64Range lib.toUint64E lib.sharpV v
          (rootSection ++ ".max_traceable_blocks") "traceable chain length" 1
          MaxUint32).2 = none := by
        rcases (unlessMissing_eq_none _).1 hr with h0 | ⟨e, he, hi⟩
        · exact h0
        · rw [hset hs e he] at hi
          exact absurd hi (by simp)
      obtain ⟨_, _, _, _, hlo, hhi⟩ := hiff.1 hnone
      have hv := hval hnone
      simp only [hv]
      have hlt : (lib.toUint64E (v.Get (rootSection ++ ".max_traceable_blocks"))).1
          < 2 ^ 32 := by
        unfold MaxUint32 at hhi
        omega
      rw [Nat.mod_eq_of_lt hlt]
      exact ⟨rfl, hlo, hhi⟩

theorem mapAssign_mem {κ β : Type} [DecidableEq κ] (m : List (κ × β)) (k : κ) (x : β)
    (e : κ × β) (h : e ∈ mapAssign m k x) : e = (k, x) ∨ e ∈ m := by
  unfold mapAssign at h
  rcases List.mem_cons.1 h with h | h
  · exact Or.inl h
  · exact Or.inr (List.mem_filter.1 h).1

/-- A property of the state that every accepted element keeps holds after the
loop of `parseConfigMap` has run through without error. -/
theorem rangeConfigMap_invariant {σ : Type} (P : σ → Prop)
    (f : σ → String → Value → σ × Option GoError) (m : List (String × Value)) :
    ∀ (st st' : σ), P st →
      (∀ s name val s', (name, val) ∈ m → P s → f s name val = (s', none) → P s') →
      rangeConfigMap f m st = (st', none) → P st' := by
  induction m with
  | nil =>
      intro st st' h0 _ h
      simp only [rangeConfigMap, Prod.mk.injEq, and_true] at h
      exact h ▸ h0
  | cons hd tl ih =>
      intro st st' h0 hstep h
      obtain ⟨name, val⟩ := hd
      unfold rangeConfigMap at h
      cases hf : f st name val with
      | mk s1 e1 =>
          cases e1 with
          | some err => simp [hf] at h
          | none =>
              simp only [hf] at h
              exact ih s1 st' (hstep st name val s1 (List.mem_cons_self _ _) h0 hf)
                (fun s n x s' hm => hstep s n x s' (List.mem_cons_of_mem _ hm)) h

theorem parseConfigMap_ok {σ : Type} (lib : Libs) (v : Viper) (key desc : String)
    (f : σ → String → Value → σ × Option GoError) (st : σ)
    (h : (parseConfigMap lib v key desc f st).2 = none) :
    rangeConfigMap f (lib.toStringMapE (v.Get key)).1 st =
      ((parseConfigMap lib v key desc f st).1, none) := by
  unfold parseConfigMap at h ⊢
  cases hs : v.IsSet key with
  | false => simp [hs] at h
  | true =>
      simp only [hs, Bool.not_true, Bool.false_eq_true, if_false, Option.isNone_none,
        if_true] at h ⊢
      cases hm : (lib.toStringMapE (v.Get key)).2 with
      | some e => simp [hm] at h
      | none =>
          simp only [hm] at h ⊢
          cases hr : rangeConfigMap f (lib.toStringMapE (v.Get key)).1 st with
          | mk s1 e1 =>
              cases e1 with
              | some err => simp [hr] at h
              | none => simp

theorem parseHardForks_ok (lib : Libs) (v : Viper) (c c' : Config)
    (h : parseHardForks lib v c = (c', none)) (h0 : c.HardForks = []) :
    ∀ name x, (name, x) ∈ c'.HardForks →
      ∃ val, (name, val) ∈ (lib.toStringMapE (v.Get (rootSection ++ ".hardforks"))).1 ∧
        (lib.toUint64E val).2 = none ∧ x = (lib.toUint64E val).1 ∧ x ≤ MaxUint32 := by
  unfold parseHardForks at h
  simp only [] at h
  split_ifs at h with hs
  · simp only [Prod.mk.injEq] at h
    obtain ⟨hc, he⟩ := h
    subst hc
    simp only []
    unfold parseConfigMapUint32 at he ⊢
    have hrun := parseConfigMap_ok lib v _ _ _ _ he
    refine rangeConfigMap_invariant
      (fun st => ∀ name x, (name, x) ∈ st →
        ∃ val, (name, val) ∈ (lib.toStringMapE (v.Get (rootSection ++ ".hardforks"))).1 ∧
          (lib.toUint64E val).2 = none ∧ x = (lib.toUint64E val).1 ∧ x ≤ MaxUint32)
      _ _ _ _ (by simp) ?_ hrun
    intro s name val s' hmem hP hf
    simp only [] at hf
    by_cases hname : name = ""
    · simp [hname] at hf
    · cases hcast : (lib.toUint64E val).2 with
      | some err => simp [hname, hcast] at hf
      | none =>
          by_cases hlim : (lib.toUint64E val).1 > MaxUint32
          · simp [hname, hcast, hlim] at hf
          · simp only [hname, hcast, hlim, if_false, Prod.mk.injEq, and_true] at hf
            subst hf
            intro n x hx
            rcases mapAssign_mem _ _ _ _ hx with hnew | hold
            · simp only [Prod.mk.injEq] at hnew
              obtain ⟨hn, hxv⟩ := hnew
              subst hn
              have hle : (lib.toUint64E val).1 ≤ MaxUint32 := by omega
              have hlt : (lib.toUint64E val).1 < 2 ^ 32 := by
                unfold MaxUint32 at hle
                omega
              rw [Nat.mod_eq_of_lt hlt] at hxv
              exact ⟨val, hmem, hcast, hxv, hxv ▸ hle⟩
            · exact hP n x hold
  · simp only [Prod.mk.injEq, and_true] at h
    subst h
    simp [h0]

theorem parseValidatorsHistory_ok (lib : Libs) (v : Viper) (c c' : Config)
    (h : parseValidatorsHistory lib v c = (c', none)) (h0 : c.ValidatorsHistory = []) :
    ∀ height num, (height, num) ∈ c'.ValidatorsHistory →
      ∃ name val,
        (name, val) ∈ (lib.toStringMapE (v.Get (rootSection ++ ".validators_history"))).1 ∧
        (lib.parseUint32 name).2 = none ∧ height = (lib.parseUint32 name).1 % 2 ^ 32 ∧
        (lib.toUint32E val).2 = none ∧ num = (lib.toUint32E val).1 ∧ num ≤ MaxInt32 := by
  unfold parseValidatorsHistory at h
  simp only [] at h
  split_ifs at h with hs
  · simp only [Prod.mk.injEq] at h
    obtain ⟨hc, he⟩ := h
    subst hc
    simp only []
    have hrun := parseConfigMap_ok lib v _ _ _ _ he
    refine rangeConfigMap_invariant
      (fun st => ∀ height num, (height, num) ∈ st →
        ∃ name val,
          (name, val) ∈
            (lib.toStringMapE (v.Get (rootSection ++ ".validators_history"))).1 ∧
          (lib.parseUint32 name).2 = none ∧ height = (lib.parseUint32 name).1 % 2 ^ 32 ∧
          (lib.toUint32E val).2 = none ∧ num = (lib.toUint32E val).1 ∧ num ≤ MaxInt32)
      _ _ _ _ (by simp) ?_ hrun
    intro s name val s' hmem hP hf
    unfold validatorsHistoryElement at hf
    simp only [] at hf
    cases hh : (lib.parseUint32 name).2 with
    | some err => simp [hh] at hf
    | none =>
        cases hn : (lib.toUint32E val).2 with
        | some err => simp [hh, hn] at hf
        | none =>
            by_cases hlim : (lib.toUint32E val).1 > MaxInt32
            · simp [hh, hn, hlim] at hf
            · simp only [hh, hn, hlim, if_false, Prod.mk.injEq, and_true] at hf
              subst hf
              intro n x hx
              rcases mapAssign_mem _ _ _ _ hx with hnew | hold
              · simp only [Prod.mk.injEq] at hnew
                obtain ⟨hk, hx'⟩ := hnew
                exact ⟨name, val, hmem, hh, hk, hn, hx', by omega⟩
              · exact hP n x hold
  · simp only [Prod.mk.injEq, and_true] at h
    subst h
    simp [h0]

theorem subUint64_lt (a b : Nat) : subUint64 a b < 2 ^ 64 := by
  unfold subUint64
  exact Nat.mod_lt _ (by norm_num)

/-- The minimum of peers that a successful `parseP2PPeers` stores, in terms of
the result of `parseConfigUint64Max`. -/
theorem parseP2PPeers_stored (lib : Libs) (v : Viper) (c c' : Config)
    (hpeers : v.IsSet p2pPeersSection = true)
    (h : parseP2PPeers lib v c = (c', none)) :
    (∃ x, parseConfigUint64Max lib.toUint64E lib.sharpV v (p2pPeersSection ++ ".min")
        "minimum number of P2P peers" MaxInt32 = (x, none) ∧ c'.P2P.MinPeers = x % 2 ^ 64) ∨
    (∃ x e, parseConfigUint64Max lib.toUint64E lib.sharpV v (p2pPeersSection ++ ".min")
        "minimum number of P2P peers" MaxInt32 = (x, some e) ∧
      errorsIs e errMissingConfig = true ∧
      c'.P2P.MinPeers = subUint64 (subUint64 (c.Committee.length % 2 ^ 64)
        (subUint64 (c.Committee.length % 2 ^ 64) 1 / 3)) 1) := by
  unfold parseP2PPeers at h
  simp only [hpeers, if_true] at h
  generalize parseConfigUint64Max lib.toUint64E lib.sharpV v (p2pPeersSection ++ ".min")
    "minimum number of P2P peers" MaxInt32 = r at h ⊢
  obtain ⟨x, e⟩ := r
  cases e with
  | none =>
      left
      refine ⟨x, rfl, ?_⟩
      simp only [] at h
      split at h
      · simp at h
      · split at h
        · simp at h
        · simp only [Prod.mk.injEq, and_true] at h
          subst h
          rfl
  | some err =>
      right
      cases hi : errorsIs err errMissingConfig with
      | false => simp [hi] at h
      | true =>
          refine ⟨x, err, rfl, hi, ?_⟩
          simp only [hi, Bool.not_true, Bool.false_eq_true, if_false] at h
          split at h
          · simp at h
          · split at h
            · simp at h
            · simp only [Prod.mk.injEq, and_true] at h
              subst h
              exact Nat.mod_eq_of_lt (subUint64_lt _ _)

theorem parseP2PPeers_minPeers (lib : Libs) (v : Viper) (c c' : Config)
    (hlib : ∀ val e, (lib.toUint64E val).2 = some e → errorsIs e errMissingConfig = false)
    (hpeers : v.IsSet p2pPeersSection = true)
    (h : parseP2PPeers lib v c = (c', none)) :
    (v.IsSet (p2pPeersSection ++ ".min") = true →
      (∀ f, v.Get (p2pPeersSection ++ ".min") ≠ Value.float32 f) ∧
      (∀ f, v.Get (p2pPeersSection ++ ".min") ≠ Value.float64 f) ∧
      (lib.toUint64E (v.Get (p2pPeersSection ++ ".min"))).2 = none ∧
      (lib.toUint64E (v.Get (p2pPeersSection ++ ".min"))).1 ≤ MaxInt32 ∧
      c'.P2P.MinPeers = (lib.toUint64E (v.Get (p2pPeersSection ++ ".min"))).1) ∧
    (v.IsSet (p2pPeersSection ++ ".min") = false →
      c'.P2P.MinPeers = subUint64 (subUint64 (c.Committee.length % 2 ^ 64)
        (subUint64 (c.Committee.length % 2 ^ 64) 1 / 3)) 1) := by
  obtain ⟨hm, hset⟩ := parseConfigUint64Range_missing lib.toUint64E lib.sharpV v
    (p2pPeersSection ++ ".min") "minimum number of P2P peers" 0 MaxInt32 hlib
  obtain ⟨hiff, hval⟩ := parseConfigUint64Range_ok lib.toUint64E lib.sharpV v
    (p2pPeersSection ++ ".min") "minimum number of P2P peers" 0 MaxInt32
  have hst := parseP2PPeers_stored lib v c c' hpeers h
  unfold parseConfigUint64Max at hst
  constructor
  · intro hs
    rcases hst with ⟨x, hx, hmin⟩ | ⟨x, e, hx, hi, _⟩
    · have hnone : (parseConfigUint64Range lib.toUint64E lib.sharpV v
          (p2pPeersSection ++ ".min") "minimum number of P2P peers" 0 MaxInt32).2 = none := by
        rw [hx]
      obtain ⟨_, h32, h64, hc, _, hhi⟩ := hiff.1 hnone
      have hv := hval hnone
      rw [hx] at hv
      simp only [] at hv
      subst hv
      have hlt : (lib.toUint64E (v.Get (p2pPeersSection ++ ".min"))).1 < 2 ^ 64 := by
        unfold MaxInt32 at hhi
        omega
      rw [Nat.mod_eq_of_lt hlt] at hmin
      exact ⟨h32, h64, hc, hhi, hmin⟩
    · have := hset hs e (by rw [hx])
      rw [this] at hi
      exact absurd hi (by simp)
  · intro hs
    rcases hst with ⟨x, hx, _⟩ | ⟨x, e, _, _, hmin⟩
    · rw [hm hs] at hx
      simp at hx
    · exact hmin

/-- The minimum of peers that a successful `parseP2P` stores is the one that
`parseP2PPeers` stored, computed on the committee already parsed. -/
theorem parseP2P_peers (lib : Libs) (v : Viper) (c c' : Config)
    (hp2p : v.IsSet p2pSection = true) (h : parseP2P lib v c = (c', none)) :
    ∃ c3 c4, c3.Committee = c.Committee ∧ parseP2PPeers lib v c3 = (c4, none) ∧
      c'.P2P.MinPeers = c4.P2P.MinPeers := by
  unfold parseP2P at h
  simp only [hp2p, if_true] at h
  have h2 := congrArg Prod.snd h
  simp only [] at h2
  obtain ⟨_, e1⟩ := andThen_none _ _ h2
  rw [e1] at h h2
  obtain ⟨_, e2⟩ := andThen_none _ _ h2
  rw [e2] at h h2
  obtain ⟨_, e3⟩ := andThen_none _ _ h2
  rw [e3] at h h2
  obtain ⟨hp, e4⟩ := andThen_none _ _ h2
  rw [e4] at h
  refine ⟨_, _, ?_, Prod.ext rfl hp, ?_⟩
  · rfl
  · have h' := congrArg (fun r => r.1.P2P.MinPeers) h
    exact h'.symm.trans (parseP2PPing_frame lib v _).2

theorem parseConfigUint64Range_unset (toUint64E : ToUint64EFn) (sharpV : SharpVFn)
    (v : Viper) (key desc : String) (min max : Nat) (hs : v.IsSet key = false) :
    parseConfigUint64Range toUint64E sharpV v key desc min max =
      (0, some (fmtErrorfW ("invalid " ++ desc ++ " '" ++ key ++ "' (unsigned integer): ")
        errMissingConfig)) := by
  unfold parseConfigUint64Range
  rw [parseConfigUint64Condition_missing toUint64E sharpV v key desc _ hs]
  rfl

theorem parseP2PPeers_default (lib : Libs) (v : Viper) (c c' : Config)
    (hpeers : v.IsSet p2pPeersSection = true)
    (hmin : v.IsSet (p2pPeersSection ++ ".min") = false)
    (h : parseP2PPeers lib v c = (c', none)) :
    c'.P2P.MinPeers = subUint64 (subUint64 (c.Committee.length % 2 ^ 64)
      (subUint64 (c.Committee.length % 2 ^ 64) 1 / 3)) 1 := by
  have hst := parseP2PPeers_stored lib v c c' hpeers h
  unfold parseConfigUint64Max at hst
  rw [parseConfigUint64Range_unset lib.toUint64E lib.sharpV v _ _ _ _ hmin] at hst
  rcases hst with ⟨x, hx, _⟩ | ⟨x, e, _, _, hm⟩
  · simp at hx
  · exact hm

theorem parseCommittee_ok (lib : Libs) (v : Viper) (c c' : Config)
    (h : parseCommittee lib v c = (c', none)) : 1 ≤ c'.Committee.length := by
  unfold parseCommittee at h
  simp only [] at h
  split at h
  · simp at h
  · split_ifs at h with hz
    · simp at h
    · simp only [Prod.mk.injEq, and_true] at h
      subst h
      exact Nat.one_le_iff_ne_zero.2 hz

/-- The fields of a successfully parsed configuration, traced back to the part
that stored them. -/
theorem parseBlockchainConfig_fields (lib : Libs) (v : Viper) (lg : Option Logger)
    (h : (parseBlockchainConfig lib v lg).2 = none) :
    ∃ c1 c2 c3 c4 c5 c6 c7 c7' c8 c9 c10,
      parseMagic lib v Config.zero = (c1, none) ∧
      parseCommittee lib v c2 = (c3, none) ∧
      parseTraceableChainLength lib v c4 = (c5, none) ∧
      c6.HardForks = [] ∧ parseHardForks lib v c6 = (c7, none) ∧
      c7'.ValidatorsHistory = [] ∧ parseValidatorsHistory lib v c7' = (c8, none) ∧
      c9.Committee = c3.Committee ∧ parseP2P lib v c9 = (c10, none) ∧
      (parseBlockchainConfig lib v lg).1.NetworkMagic = c1.NetworkMagic ∧
      (parseBlockchainConfig lib v lg).1.Committee = c3.Committee ∧
      (parseBlockchainConfig lib v lg).1.TraceableChainLength = c5.TraceableChainLength ∧
      (parseBlockchainConfig lib v lg).1.HardForks = c7.HardForks ∧
      (parseBlockchainConfig lib v lg).1.ValidatorsHistory = c8.ValidatorsHistory ∧
      (parseBlockchainConfig lib v lg).1.P2P.MinPeers = c10.P2P.MinPeers := by
  obtain ⟨c1, c2, c3, c4, c5, c6, c7, c8, c9, c10, e1, e2, e3, e4, e5, e6, e7, e8, e9, e10,
    hfin⟩ := parseBlockchainConfig_parts lib v lg h
  have f1 := parseMagic_frame lib v Config.zero
  rw [e1] at f1
  obtain ⟨_, _, f1h, f1v⟩ := f1
  have f2 := parseStorage_frame lib v c1
  rw [e2] at f2
  simp only [Config.core, Prod.mk.injEq] at f2
  obtain ⟨f2n, _, _, f2h, f2v⟩ := f2
  have f3 := parseCommittee_frame lib v c2
  rw [e3] at f3
  obtain ⟨f3n, _, f3h, f3v⟩ := f3
  have f4 := parseBlockInterval_frame lib v c3
  rw [e4] at f4
  simp only [Config.core, Prod.mk.injEq] at f4
  obtain ⟨f4n, f4c, _, f4h, f4v⟩ := f4
  have f5 := parseTraceableChainLength_frame lib v c4
  rw [e5] at f5
  obtain ⟨f5n, f5c, f5h, f5v⟩ := f5
  have f6 := parseSeedNodes_frame lib v c5
  rw [e6] at f6
  simp only [Config.core, Prod.mk.injEq] at f6
  obtain ⟨f6n, f6c, f6t, f6h, f6v⟩ := f6
  have f7 := parseHardForks_frame lib v c6
  rw [e7] at f7
  obtain ⟨f7n, f7c, f7t, f7v⟩ := f7
  have f8 := parseValidatorsHistory_frame lib v c7
  rw [e8] at f8
  obtain ⟨f8n, f8c, f8t, f8h⟩ := f8
  have f9 := parseRPC_frame lib v c8
  rw [e9] at f9
  simp only [Config.core, Prod.mk.injEq] at f9
  obtain ⟨f9n, f9c, f9t, f9h, f9v⟩ := f9
  have f10 := parseP2P_frame lib v c9
  rw [e10] at f10
  simp only [Config.core, Prod.mk.injEq] at f10
  obtain ⟨f10n, f10c, f10t, f10h, f10v⟩ := f10
  simp only [] at f7n f7c f7t f7v f8n f8c f8t f8h
  have z1 : Config.zero.HardForks = [] := rfl
  have z2 : Config.zero.ValidatorsHistory = [] := rfl
  refine ⟨c1, c2, c3, c4, c5, c6, c7, c7, c8, c9, c10, e1, e3, e5, ?_, e7, ?_, e8, ?_, e10,
    ?_, ?_, ?_, ?_, ?_, ?_⟩
  · rw [f6h, f5h, f4h, f3h, f2h, f1h, z1]
  · rw [f7v, f6v, f5v, f4v, f3v, f2v, f1v, z2]
  · rw [f9c, f8c, f7c, f6c, f5c, f4c]
  · rw [hfin]
    show c10.NetworkMagic = c1.NetworkMagic
    rw [f10n, f9n, f8n, f7n, f6n, f5n, f4n, f3n, f2n]
  · rw [hfin]
    show c10.Committee = c3.Committee
    rw [f10c, f9c, f8c, f7c, f6c, f5c, f4c]
  · rw [hfin]
    show c10.TraceableChainLength = c5.TraceableChainLength
    rw [f10t, f9t, f8t, f7t, f6t]
  · rw [hfin]
    show c10.HardForks = c7.HardForks
    rw [f10h, f9h, f8h]
  · rw [hfin]
    show c10.ValidatorsHistory = c8.ValidatorsHistory
    rw [f10v, f9v]
  · rw [hfin]

/-! ## The parsed blockchain configuration -/

theorem key_p2p : p2pSection = "morph.consensus.p2p" := by decide

theorem key_peers : p2pPeersSection = "morph.consensus.p2p.peers" := by decide

theorem key_peers_min : p2pPeersSection ++ ".min" = "morph.consensus.p2p.peers.min" := by
  decide

theorem key_magic : rootSection ++ ".magic" = "morph.consensus.magic" := by decide

theorem key_traceable :
    rootSection ++ ".max_traceable_blocks" = "morph.consensus.max_traceable_blocks" := by
  decide

theorem key_hardforks : rootSection ++ ".hardforks" = "morph.consensus.hardforks" := by
  decide

/-- The default of lines 185-186 for a committee of `n` members, `n` between 1
and the largest `uint64`: no subtraction wraps around. -/
theorem default_minPeers_exact (n : Nat) (h1 : 1 ≤ n) (h2 : n < 2 ^ 64) :
    subUint64 (subUint64 (n % 2 ^ 64) (subUint64 (n % 2 ^ 64) 1 / 3)) 1
      = n - (n - 1) / 3 - 1 := by
  have e0 : n % 2 ^ 64 = n := Nat.mod_eq_of_lt h2
  have e1 : subUint64 n 1 = n - 1 := by
    unfold subUint64
    omega
  have e2 : subUint64 n ((n - 1) / 3) = n - (n - 1) / 3 := by
    unfold subUint64
    omega
  have e3 : subUint64 (n - (n - 1) / 3) 1 = n - (n - 1) / 3 - 1 := by
    unfold subUint64
    omega
  rw [e0, e1, e2, e3]

/-- C12: on a successful `parseBlockchainConfig` with the sections
`morph.consensus.p2p` and `morph.consensus.p2p.peers` set, and a cast function
none of whose errors matches `errMissingConfig`: if the key
`morph.consensus.p2p.peers.min` is set, its value is not a float, casts to a
number of `[0, MaxInt32]` and `P2P.MinPeers` is that number unchanged, so an
explicit 0 yields `MinPeers = 0`; and if the key is not set, `P2P.MinPeers` is
the default computed from the committee.  The default is thus used exactly
when the key is absent. -/
theorem minPeers_explicit_or_default (lib : Libs) (v : Viper) (lg : Option Logger)
    (hlib : ∀ val e, (lib.toUint64E val).2 = some e → errorsIs e errMissingConfig = false)
    (hok : (parseBlockchainConfig lib v lg).2 = none)
    (hp2p : v.IsSet "morph.consensus.p2p" = true)
    (hpeers : v.IsSet "morph.consensus.p2p.peers" = true) :
    (v.IsSet "morph.consensus.p2p.peers.min" = true →
      (∀ f, v.Get "morph.consensus.p2p.peers.min" ≠ Value.float32 f) ∧
      (∀ f, v.Get "morph.consensus.p2p.peers.min" ≠ Value.float64 f) ∧
      (lib.toUint64E (v.Get "morph.consensus.p2p.peers.min")).2 = none ∧
      (lib.toUint64E (v.Get "morph.consensus.p2p.peers.min")).1 ≤ MaxInt32 ∧
      (parseBlockchainConfig lib v lg).1.P2P.MinPeers =
        (lib.toUint64E (v.Get "morph.consensus.p2p.peers.min")).1) ∧
    (v.IsSet "morph.consensus.p2p.peers.min" = true →
      (lib.toUint64E (v.Get "morph.consensus.p2p.peers.min")).1 = 0 →
      (parseBlockchainConfig lib v lg).1.P2P.MinPeers = 0) ∧
    (v.IsSet "morph.consensus.p2p.peers.min" = false →
      (parseBlockchainConfig lib v lg).1.P2P.MinPeers =
        subUint64 (subUint64 ((parseBlockchainConfig lib v lg).1.Committee.length % 2 ^ 64)
          (subUint64 ((parseBlockchainConfig lib v lg).1.Committee.length % 2 ^ 64) 1 / 3))
          1) := by
  obtain ⟨c1, c2, c3, c4, c5, c6, c7, c7', c8, c9, c10, _, _, _, _, _, _, _, hc9, e10,
    _, hcom, _, _, _, hmin⟩ := parseBlockchainConfig_fields lib v lg hok
  rw [← key_p2p] at hp2p
  rw [← key_peers] at hpeers
  obtain ⟨p3, p4, hp3, ep, hpm⟩ := parseP2P_peers lib v c9 c10 hp2p e10
  obtain ⟨hset, hunset⟩ := parseP2PPeers_minPeers lib v p3 p4 hlib hpeers ep
  rw [key_peers_min] at hset hunset
  have hfinal : (parseBlockchainConfig lib v lg).1.P2P.MinPeers = p4.P2P.MinPeers :=
    hmin.trans hpm
  have hlen : (parseBlockchainConfig lib v lg).1.Committee.length = p3.Committee.length := by
    rw [hcom, hp3, hc9]
  refine ⟨?_, ?_, ?_⟩
  · intro hs
    obtain ⟨a, b, c, d, e⟩ := hset hs
    exact ⟨a, b, c, d, hfinal.trans e⟩
  · intro hs hz
    obtain ⟨_, _, _, _, e⟩ := hset hs
    rw [hfinal, e, hz]
  · intro hs
    rw [hfinal, hlen]
    exact hunset hs

theorem minPeers_explicit_or_default_witness :
    (∀ val e, (basicLibs.toUint64E val).2 = some e → errorsIs e errMissingConfig = false) ∧
    (parseBlockchainConfig basicLibs (sampleConfig (some (Value.int 0))) none).2 = none ∧
    (sampleConfig (some (Value.int 0))).IsSet "morph.consensus.p2p" = true ∧
    (sampleConfig (some (Value.int 0))).IsSet "morph.consensus.p2p.peers" = true ∧
    ((sampleConfig (some (Value.int 0))).IsSet "morph.consensus.p2p.peers.min" = true →
      (basicLibs.toUint64E
        ((sampleConfig (some (Value.int 0))).Get "morph.consensus.p2p.peers.min")).1 = 0 →
      (parseBlockchainConfig basicLibs (sampleConfig (some (Value.int 0))) none).1.P2P.MinPeers
        = 0) :=
  ⟨basicToUint64E_not_missing, by decide, by decide, by decide,
    (minPeers_explicit_or_default basicLibs (sampleConfig (some (Value.int 0))) none
      basicToUint64E_not_missing (by decide) (by decide) (by decide)).2.1⟩

/-- C15: on a successful `parseBlockchainConfig` with the sections
`morph.consensus.p2p` and `morph.consensus.p2p.peers` set and the key
`morph.consensus.p2p.peers.min` not set, the committee size `n` (a slice
length, below `2 ^ 64`) is at least 1, no subtraction of the unsigned
computation `n - (n-1)/3 - 1` wraps around, and `P2P.MinPeers` equals its exact
value, which is `⌈2(n-1)/3⌉` and lies between 0 and `n - 1`. -/
theorem minPeers_default_value (lib : Libs) (v : Viper) (lg : Option Logger)
    (hok : (parseBlockchainConfig lib v lg).2 = none)
    (hp2p : v.IsSet "morph.consensus.p2p" = true)
    (hpeers : v.IsSet "morph.consensus.p2p.peers" = true)
    (hmin : v.IsSet "morph.consensus.p2p.peers.min" = false)
    (hlen : (parseBlockchainConfig lib v lg).1.Committee.length < 2 ^ 64) :
    1 ≤ (parseBlockchainConfig lib v lg).1.Committee.length ∧
    ((parseBlockchainConfig lib v lg).1.Committee.length - 1) / 3 ≤
      (parseBlockchainConfig lib v lg).1.Committee.length ∧
    1 ≤ (parseBlockchainConfig lib v lg).1.Committee.length -
      ((parseBlockchainConfig lib v lg).1.Committee.length - 1) / 3 ∧
    (((parseBlockchainConfig lib v lg).1.P2P.MinPeers : Nat) : Int) =
      ((parseBlockchainConfig lib v lg).1.Committee.length : Int) -
        (((parseBlockchainConfig lib v lg).1.Committee.length : Int) - 1) / 3 - 1 ∧
    (parseBlockchainConfig lib v lg).1.P2P.MinPeers =
      ceilTwoThirds ((parseBlockchainConfig lib v lg).1.Committee.length - 1) ∧
    (parseBlockchainConfig lib v lg).1.P2P.MinPeers ≤
      (parseBlockchainConfig lib v lg).1.Committee.length - 1 := by
  obtain ⟨c1, c2, c3, c4, c5, c6, c7, c7', c8, c9, c10, _, e3, _, _, _, _, _, hc9, e10,
    _, hcom, _, _, _, hmp⟩ := parseBlockchainConfig_fields lib v lg hok
  rw [← key_p2p] at hp2p
  rw [← key_peers] at hpeers
  rw [← key_peers_min] at hmin
  obtain ⟨p3, p4, hp3, ep, hpm⟩ := parseP2P_peers lib v c9 c10 hp2p e10
  have hdef := parseP2PPeers_default lib v p3 p4 hpeers hmin ep
  have hn1 := parseCommittee_ok lib v c2 c3 e3
  have hl : p3.Committee.length = (parseBlockchainConfig lib v lg).1.Committee.length := by
    rw [hcom, hp3, hc9]
  rw [← hcom] at hn1
  rw [hl, default_minPeers_exact _ hn1 hlen] at hdef
  have hfinal : (parseBlockchainConfig lib v lg).1.P2P.MinPeers =
      (parseBlockchainConfig lib v lg).1.Committee.length -
        ((parseBlockchainConfig lib v lg).1.Committee.length - 1) / 3 - 1 :=
    (hmp.trans hpm).trans hdef
  generalize (parseBlockchainConfig lib v lg).1.Committee.length = n at hn1 hfinal ⊢
  generalize (parseBlockchainConfig lib v lg).1.P2P.MinPeers = m at hfinal ⊢
  unfold ceilTwoThirds
  omega

theorem minPeers_default_value_witness :
    (parseBlockchainConfig basicLibs (sampleConfig none) none).2 = none ∧
    (sampleConfig none).IsSet "morph.consensus.p2p" = true ∧
    (sampleConfig none).IsSet "morph.consensus.p2p.peers" = true ∧
    (sampleConfig none).IsSet "morph.consensus.p2p.peers.min" = false ∧
    (parseBlockchainConfig basicLibs (sampleConfig none) none).1.Committee.length < 2 ^ 64 ∧
    (parseBlockchainConfig basicLibs (sampleConfig none) none).1.P2P.MinPeers =
      ceilTwoThirds ((parseBlockchainConfig basicLibs (sampleConfig none) none).1.Committee.length
        - 1) :=
  ⟨by decide, by decide, by decide, by decide, by decide,
    (minPeers_default_value basicLibs (sampleConfig none) none (by decide) (by decide)
      (by decide) (by decide) (by decide)).2.2.2.2.1⟩

theorem key_history :
    rootSection ++ ".validators_history" = "morph.consensus.validators_history" := by
  decide

/-- What a successful `parseBlockchainConfig` stores in its 32-bit fields, for
a cast function none of whose errors matches `errMissingConfig`: the
conversions written in the parser do not truncate.  `NetworkMagic` is the cast
magic, in `[1, 2^32 - 1]`; `TraceableChainLength` is the cast
`max_traceable_blocks`, in `[1, 2^32 - 1]`, or 0 when the key is not set; every
`HardForks` value is the cast value of an element of the configured dictionary
and is at most `2^32 - 1`; every `ValidatorsHistory` entry is the height that
`strconv.ParseUint` read, modulo `2^32`, with the number that `cast.ToUint32E`
returned for the element, at most `2^31 - 1`. -/
theorem narrowing_conversions_exact (lib : Libs) (v : Viper) (lg : Option Logger)
    (hlib : ∀ val e, (lib.toUint64E val).2 = some e → errorsIs e errMissingConfig = false)
    (hok : (parseBlockchainConfig lib v lg).2 = none) :
    ((parseBlockchainConfig lib v lg).1.NetworkMagic =
        (lib.toUint64E (v.Get "morph.consensus.magic")).1 ∧
      1 ≤ (parseBlockchainConfig lib v lg).1.NetworkMagic ∧
      (parseBlockchainConfig lib v lg).1.NetworkMagic ≤ 2 ^ 32 - 1) ∧
    (v.IsSet "morph.consensus.max_traceable_blocks" = true →
      (parseBlockchainConfig lib v lg).1.TraceableChainLength =
        (lib.toUint64E (v.Get "morph.consensus.max_traceable_blocks")).1 ∧
      1 ≤ (parseBlockchainConfig lib v lg).1.TraceableChainLength ∧
      (parseBlockchainConfig lib v lg).1.TraceableChainLength ≤ 2 ^ 32 - 1) ∧
    (v.IsSet "morph.consensus.max_traceable_blocks" = false →
      (parseBlockchainConfig lib v lg).1.TraceableChainLength = 0) ∧
    (∀ name x, (name, x) ∈ (parseBlockchainConfig lib v lg).1.HardForks →
      ∃ val, (name, val) ∈ (lib.toStringMapE (v.Get "morph.consensus.hardforks")).1 ∧
        (lib.toUint64E val).2 = none ∧ x = (lib.toUint64E val).1 ∧ x ≤ 2 ^ 32 - 1) ∧
    (∀ height num, (height, num) ∈ (parseBlockchainConfig lib v lg).1.ValidatorsHistory →
      ∃ name val,
        (name, val) ∈ (lib.toStringMapE (v.Get "morph.consensus.validators_history")).1 ∧
        (lib.parseUint32 name).2 = none ∧ height = (lib.parseUint32 name).1 % 2 ^ 32 ∧
        (lib.toUint32E val).2 = none ∧ num = (lib.toUint32E val).1 ∧ num ≤ 2 ^ 31 - 1) := by
  obtain ⟨c1, c2, c3, c4, c5, c6, c7, c7', c8, c9, c10, e1, _, e5, h6, e7, h7, e8, _, _,
    hn, _, ht, hh, hv, _⟩ := parseBlockchainConfig_fields lib v lg hok
  have hmagic := parseMagic_ok lib v _ _ e1
  have htrace := parseTraceableChainLength_ok lib v _ _ hlib e5
  have hforks := parseHardForks_ok lib v _ _ e7 h6
  have hhist := parseValidatorsHistory_ok lib v _ _ e8 h7
  rw [key_magic] at hmagic
  rw [key_traceable] at htrace
  rw [key_hardforks] at hforks
  rw [key_history] at hhist
  have m32 : MaxUint32 = 2 ^ 32 - 1 := by decide
  have m31 : MaxInt32 = 2 ^ 31 - 1 := by decide
  rw [m32] at hmagic htrace
  rw [hn, ht, hh, hv]
  refine ⟨hmagic, htrace.2, htrace.1, ?_, ?_⟩
  · intro name x hx
    obtain ⟨val, a, b, c, d⟩ := hforks name x hx
    exact ⟨val, a, b, c, m32 ▸ d⟩
  · intro height num hx
    obtain ⟨name, val, a, b, c, d, e, f⟩ := hhist height num hx
    exact ⟨name, val, a, b, c, d, e, m31 ▸ f⟩

/-- C16, the code at a failing input: the validators history holds, for
height 70000, the number `2^32 + 1`.  With `cast.ToUint32E` narrowing an
integer the way Go's `uint32(v)` does, the number reaches the range check of
line 122 as 1, the parse succeeds and 1 is stored: the configured value is
truncated modulo `2^32`.  The check itself refuses `2^31`, and the sibling
`parseConfigMapUint32`, which casts to 64 bits and checks before it narrows,
refuses `2^32 + 1` among the hard forks. -/
theorem validatorsHistory_value_truncated :
    (parseBlockchainConfig basicLibs (historyConfig [("70000", 4294967297)]) none).2 = none ∧
    (parseBlockchainConfig basicLibs
      (historyConfig [("70000", 4294967297)]) none).1.ValidatorsHistory = [(70000, 1)] ∧
    (parseBlockchainConfig basicLibs
      (historyConfig [("70000", 2147483648)]) none).2.map GoError.Error =
      some ("invalid validators history 'morph.consensus.validators_history' (dictionary): " ++
        "invalid element '70000': value 2147483648 is out of allowable range") ∧
    (parseBlockchainConfig basicLibs
      (forksConfig [("Aspidochelone", 4294967297)]) none).2.map GoError.Error =
      some ("invalid hard forks 'morph.consensus.hardforks' (dictionary): " ++
        "invalid element 'Aspidochelone': value overflows limit 4294967297") ∧
    (parseBlockchainConfig basicLibs
      (forksConfig [("Aspidochelone", 4294967295)]) none).1.HardForks =
      [("Aspidochelone", 4294967295)] := by
  refine ⟨by decide, by decide, by decide, by decide, by decide⟩

end InnerRing
